import Mathlib

/-!
# libcontainer: `linuxUsernsInit.Init` and `network.GetStrategy`

A shallow embedding of the two source files

* `linux_userns_init.go` – the init pipeline run inside a freshly created
  container process, and
* `network/strategy.go` – the name-keyed registry of network strategies,

followed by theorems about them.

Every operation `Init` calls lives outside the file (other packages, the
kernel).  Each one is therefore a field of the record `Sys`: an arbitrary
function on an arbitrary world state `σ` that returns the Go `error` it
produced (`none` is `nil`) together with the next world.  `Init` is run
instrumented: every call of a collaborator appends one `Event` to the trace
held in `Proc`, naming the call with its arguments, the error it returned and
the world it left behind.  That the trace of a run holds the applications of
the collaborators, all of them and in the order they acted on the world, is
proved below (`Init_faithful`).

The collaborators receive the configuration by value and `Init` alone writes
to it (the default working directory): the container configuration is
read-only during init.  `syscall.Setsid` also returns a process id, which
`Init` discards; the model keeps its error only.  The types of package
configs, `initConfig` and `newSystemError` are declared outside the two source
files and are modelled with the fields and the behaviour the specification
gives them.
-/

namespace Libcontainer

/-! ## Go values -/

/-- A non-nil Go `error` value.  `system err` is the value built by
`newSystemError(err)`. -/
inductive Error where
  | cause (msg : String)
  | system (err : Error)
  deriving DecidableEq

/-- Modelled from the spec: `newSystemError` (declared in the package's
generic_error.go, which is not among the sources) "wraps its underlying
failure into a uniform system error category" that carries the originating
cause. -/
def newSystemError (err : Error) : Error := Error.system err

/-- Modelled from the spec: `configs.NamespaceType`, the namespace kinds
("mount, PID, network, UTS, etc."). -/
inductive NamespaceType where
  | NEWNET | NEWPID | NEWNS | NEWUTS | NEWIPC | NEWUSER
  deriving DecidableEq

/-- Modelled from the spec: `configs.Namespace`, a namespace kind "optionally
tagged with a join-path" (the empty path means newly created). -/
structure Namespace where
  Typ : NamespaceType
  Path : String
  deriving DecidableEq

/-- Modelled from the spec: `configs.Namespaces`, the configured namespace
set. -/
abbrev Namespaces := List Namespace

/-- Modelled from the spec: `Namespaces.Contains`, "the configuration's
namespace set contains the ... kind". -/
def Namespaces.Contains (n : Namespaces) (t : NamespaceType) : Bool :=
  n.any (fun ns => decide (ns.Typ = t))

/-- Modelled from the spec: one rlimit directive of `configs.Config`
("resource name → soft/hard limit pairs"). -/
structure Rlimit where
  Typ : Int
  Hard : Nat
  Soft : Nat
  deriving DecidableEq

/-- Modelled from the spec: the fields of `configs.Config` the init sequence
consumes. -/
structure Config where
  Namespaces : Namespaces
  Console : String
  Hostname : String
  AppArmorProfile : String
  ProcessLabel : String
  ReadonlyPaths : List String
  MaskPaths : List String
  Rlimits : List Rlimit
  deriving DecidableEq

/-- Modelled from the spec: `initConfig`, the per-process bootstrap
parameters (`Args`, `Env`, `Cwd`, `Config`). -/
structure initConfig where
  Args : List String
  Env : List String
  Cwd : String
  Config : Config
  deriving DecidableEq

/-- The type `system.ParentDeathSignal` (a Go `int`). -/
abbrev ParentDeathSignal := Int

/-- The constant `syscall.SIGKILL`. -/
def SIGKILL : Int := 9

/-- The value `newConsoleFromPath(path)`: a console known by its slave
path. -/
structure linuxConsole where
  slavePath : String
  deriving DecidableEq

/-- The function `newConsoleFromPath`. -/
def newConsoleFromPath (path : String) : linuxConsole := ⟨path⟩

/-! ## The collaborators and the instrumented run -/

/-- One call of a collaborator, with the arguments it was given; the calls
that produce a value (`Getppid`, `Getpid`, `GetParentDeathSignal`) also carry
the value they returned. -/
inductive Call where
  | joinExistingNamespaces (namespaces : Namespaces)
  | dupStdio (console : linuxConsole)
  | Setsid
  | Setctty
  | setupRlimits (config : Config)
  | setupRootfs (config : Config)
  | Sethostname (p : List UInt8)
  | ApplyProfile (name : String)
  | SetProcessLabel (label : String)
  | remountReadonly (path : String)
  | maskFile (path : String)
  | GetParentDeathSignal (returned : ParentDeathSignal)
  | finalizeNamespace (config : initConfig)
  | Restore (p : ParentDeathSignal)
  | Getppid (returned : Int)
  | Getpid (returned : Int)
  | Kill (pid : Int) (sig : Int)
  | Execv (cmd : String) (args : List String) (env : List String)
  deriving DecidableEq

/-- The operations `Init` calls, as injected collaborators over a world
state `σ`.  Each returns what the Go function returns (an `error` is an
`Option Error`, `none` being `nil`) and the world after the call. -/
structure Sys (σ : Type) where
  joinExistingNamespaces : Namespaces → σ → Option Error × σ
  dupStdio : linuxConsole → σ → Option Error × σ
  Setsid : σ → Option Error × σ
  Setctty : σ → Option Error × σ
  setupRlimits : Config → σ → Option Error × σ
  setupRootfs : Config → σ → Option Error × σ
  Sethostname : List UInt8 → σ → Option Error × σ
  ApplyProfile : String → σ → Option Error × σ
  SetProcessLabel : String → σ → Option Error × σ
  remountReadonly : String → σ → Option Error × σ
  maskFile : String → σ → Option Error × σ
  GetParentDeathSignal : σ → (ParentDeathSignal × Option Error) × σ
  finalizeNamespace : initConfig → σ → Option Error × σ
  Restore : ParentDeathSignal → σ → Option Error × σ
  Getppid : σ → Int × σ
  Getpid : σ → Int × σ
  Kill : Int → Int → σ → Option Error × σ
  Execv : String → List String → List String → σ → Option Error × σ

/-- One entry of the call trace: the call, the error it returned and the
world it left behind. -/
structure Event (σ : Type) where
  call : Call
  err : Option Error
  post : σ

/-- The state of the process running `Init`: the world of the collaborators,
the `initConfig` that `l.config` points to, and the trace of calls so far. -/
structure Proc (σ : Type) where
  world : σ
  config : initConfig
  trace : List (Event σ)

/-- How a Go function body stops early: it returns a non-nil error, or it
panics (index out of range). -/
inductive Stop where
  | returned (err : Error)
  | panic
  deriving DecidableEq

/-- A Go statement sequence over `Proc`: `.ok a` continues with `a`,
`.error s` has left the function. -/
def Run (σ α : Type) : Type := Proc σ → Except Stop α × Proc σ

/-- Falling through to the next statement with value `a`. -/
def Run.pure {σ α : Type} (a : α) : Run σ α := fun p => (Except.ok a, p)

/-- Sequencing: `f` runs only if `m` has not left the function. -/
def Run.bind {σ α β : Type} (m : Run σ α) (f : α → Run σ β) : Run σ β := fun p =>
  match m p with
  | (Except.ok a, q) => f a q
  | (Except.error s, q) => (Except.error s, q)

instance runMonad (σ : Type) : Monad (Run σ) where
  pure := Run.pure
  bind := Run.bind

/-- Call a collaborator `f` on the current world and log the event. -/
def invoke {σ ρ : Type} (f : σ → ρ × σ) (call : ρ → Call) (err : ρ → Option Error) :
    Run σ ρ := fun p =>
  let r := f p.world
  (Except.ok r.1,
    { p with world := r.2, trace := p.trace ++ [⟨call r.1, err r.1, r.2⟩] })

/-- Read `*l.config`. -/
def getConfig {σ : Type} : Run σ initConfig := fun p => (Except.ok p.config, p)

/-- The assignment `l.config.Cwd = cwd`. -/
def setCwd {σ : Type} (cwd : String) : Run σ Unit := fun p =>
  (Except.ok (), { p with config := { p.config with Cwd := cwd } })

/-- The statement `return err` of a function whose result is an `error`. -/
def ret {σ : Type} (err : Option Error) : Run σ Unit := fun p =>
  match err with
  | none => (Except.ok (), p)
  | some e => (Except.error (Stop.returned e), p)

/-- The statement `if err != nil { return newSystemError(err) }`. -/
def check {σ : Type} (err : Option Error) : Run σ Unit := fun p =>
  match err with
  | none => (Except.ok (), p)
  | some e => (Except.error (Stop.returned (newSystemError e)), p)

/-- The expression `args[0]`, which panics on an empty slice. -/
def index0 {σ : Type} (args : List String) : Run σ String := fun p =>
  match args with
  | [] => (Except.error Stop.panic, p)
  | a :: _ => (Except.ok a, p)

/-- The loop `for _, path := range paths { if err := f(path); err != nil
{ return newSystemError(err) } }`. -/
def rangeCheck {σ : Type} (f : String → σ → Option Error × σ) (call : String → Call) :
    List String → Run σ Unit
  | [] => pure ()
  | path :: rest => do
    let err ← invoke (f path) (fun _ => call path) id
    check err
    rangeCheck f call rest

/-- The method `linuxUsernsInit.Init` (linux_userns_init.go, lines 18-91). -/
def Init {σ : Type} (S : Sys σ) : Run σ Unit := do
  let l ← getConfig
  -- join any namespaces via a path to the namespace fd if provided
  let err ← invoke (S.joinExistingNamespaces l.Config.Namespaces)
    (fun _ => Call.joinExistingNamespaces l.Config.Namespaces) id
  check err
  let consolePath := l.Config.Console
  if consolePath ≠ "" then
    let console := newConsoleFromPath consolePath
    let err ← invoke (S.dupStdio console) (fun _ => Call.dupStdio console) id
    check err
  let err ← invoke S.Setsid (fun _ => Call.Setsid) id
  check err
  if consolePath ≠ "" then
    let err ← invoke S.Setctty (fun _ => Call.Setctty) id
    check err
  if l.Cwd = "" then
    setCwd "/"
  let l ← getConfig
  let err ← invoke (S.setupRlimits l.Config) (fun _ => Call.setupRlimits l.Config) id
  check err
  -- InitializeMountNamespace() can be executed only for a new mount namespace
  if l.Config.Namespaces.Contains NamespaceType.NEWNS then
    let err ← invoke (S.setupRootfs l.Config) (fun _ => Call.setupRootfs l.Config) id
    check err
  let hostname := l.Config.Hostname
  if hostname ≠ "" then
    let err ← invoke (S.Sethostname hostname.toUTF8.toList)
      (fun _ => Call.Sethostname hostname.toUTF8.toList) id
    check err
  let err ← invoke (S.ApplyProfile l.Config.AppArmorProfile)
    (fun _ => Call.ApplyProfile l.Config.AppArmorProfile) id
  check err
  let err ← invoke (S.SetProcessLabel l.Config.ProcessLabel)
    (fun _ => Call.SetProcessLabel l.Config.ProcessLabel) id
  check err
  rangeCheck S.remountReadonly Call.remountReadonly l.Config.ReadonlyPaths
  rangeCheck S.maskFile Call.maskFile l.Config.MaskPaths
  let (pdeath, err) ← invoke S.GetParentDeathSignal
    (fun r => Call.GetParentDeathSignal r.1) (fun r => r.2)
  check err
  let err ← invoke (S.finalizeNamespace l) (fun _ => Call.finalizeNamespace l) id
  check err
  -- finalizeNamespace can change user/group which clears the parent death
  -- signal, so we restore it here.
  let err ← invoke (S.Restore pdeath) (fun _ => Call.Restore pdeath) id
  check err
  -- Signal self if parent is already dead. Does nothing if running in a new
  -- PID namespace, as Getppid will always return 0.
  let ppid ← invoke S.Getppid Call.Getppid (fun _ => none)
  if ppid = 1 then
    let pid ← invoke S.Getpid Call.Getpid (fun _ => none)
    let err ← invoke (S.Kill pid SIGKILL) (fun _ => Call.Kill pid SIGKILL) id
    ret err
  else
    let cmd ← index0 l.Args
    let err ← invoke (S.Execv cmd l.Args l.Env) (fun _ => Call.Execv cmd l.Args l.Env) id
    ret err

/-- Run `Init` in a fresh process: world `w`, configuration `c`, empty
trace. -/
def runInit {σ : Type} (S : Sys σ) (w : σ) (c : initConfig) : Except Stop Unit × Proc σ :=
  Init S ⟨w, c, []⟩

/-! ## Reading a trace -/

/-- The name of the operation a call invokes. -/
inductive Op where
  | joinExistingNamespaces | dupStdio | Setsid | Setctty | setupRlimits | setupRootfs
  | Sethostname | ApplyProfile | SetProcessLabel | remountReadonly | maskFile
  | GetParentDeathSignal | finalizeNamespace | Restore | Getppid | Getpid | Kill | Execv
  deriving DecidableEq

/-- The operation invoked by a call. -/
def Call.op : Call → Op
  | Call.joinExistingNamespaces _ => Op.joinExistingNamespaces
  | Call.dupStdio _ => Op.dupStdio
  | Call.Setsid => Op.Setsid
  | Call.Setctty => Op.Setctty
  | Call.setupRlimits _ => Op.setupRlimits
  | Call.setupRootfs _ => Op.setupRootfs
  | Call.Sethostname _ => Op.Sethostname
  | Call.ApplyProfile _ => Op.ApplyProfile
  | Call.SetProcessLabel _ => Op.SetProcessLabel
  | Call.remountReadonly _ => Op.remountReadonly
  | Call.maskFile _ => Op.maskFile
  | Call.GetParentDeathSignal _ => Op.GetParentDeathSignal
  | Call.finalizeNamespace _ => Op.finalizeNamespace
  | Call.Restore _ => Op.Restore
  | Call.Getppid _ => Op.Getppid
  | Call.Getpid _ => Op.Getpid
  | Call.Kill _ _ => Op.Kill
  | Call.Execv _ _ _ => Op.Execv

/-- A trace entry without the world: the call and the error it returned. -/
def Event.entry {σ : Type} (e : Event σ) : Call × Option Error := (e.call, e.err)

/-- The log of a trace: its calls with the errors they returned, in order. -/
def log {σ : Type} (tr : List (Event σ)) : List (Call × Option Error) :=
  tr.map Event.entry

/-- The calls of a trace, in order. -/
def calls {σ : Type} (tr : List (Event σ)) : List Call := tr.map Event.call

/-- The calls of `cs` that invoke one of the operations `ops`, in order. -/
def only (ops : List Op) (cs : List Call) : List Call :=
  cs.filter (fun c => decide (c.op ∈ ops))

/-- The operation `o` was invoked in the trace and returned nil. -/
def Succeeded {σ : Type} (tr : List (Event σ)) (o : Op) : Prop :=
  ∃ x ∈ log tr, x.1.op = o ∧ x.2 = none

instance decSucceeded {σ : Type} (tr : List (Event σ)) (o : Op) : Decidable (Succeeded tr o) :=
  inferInstanceAs (Decidable (∃ x ∈ log tr, x.1.op = o ∧ x.2 = none))

/-- The operation `o` was invoked in the trace and returned a cause. -/
def Failed {σ : Type} (tr : List (Event σ)) (o : Op) : Prop :=
  ∃ x ∈ log tr, x.1.op = o ∧ x.2 ≠ none

instance decFailed {σ : Type} (tr : List (Event σ)) (o : Op) : Decidable (Failed tr o) :=
  inferInstanceAs (Decidable (∃ x ∈ log tr, x.1.op = o ∧ x.2 ≠ none))

/-- The working directory after step 5: `/` when none was configured. -/
def effectiveCwd (c : initConfig) : String := if c.Cwd = "" then "/" else c.Cwd

/-- The operations of the log entries that returned nil, in order. -/
def okOps (l : List (Call × Option Error)) : List Op :=
  l.filterMap (fun x => if x.2 = none then some x.1.op else none)

/-- The operations of the log entries that returned a cause, in order. -/
def failedOps (l : List (Call × Option Error)) : List Op :=
  l.filterMap (fun x => if x.2 = none then none else some x.1.op)

/-! ## The parent-death-signal registration as a state field -/

/-- A world that holds the parent-death-signal registration of the process
(`0` means none is registered) next to everything else. -/
structure World (σ : Type) where
  pdeathsig : ParentDeathSignal
  rest : σ

/-- Modelled from the spec: `system.GetParentDeathSignal` (package system is
not among the sources), "capture current parent-death-signal registration for
later restoration. Capture — not modify".  `fails` decides whether the call
fails; on success the registration is returned and the world is unchanged. -/
def GetParentDeathSignal {σ : Type} (fails : World σ → Option Error) (w : World σ) :
    (ParentDeathSignal × Option Error) × World σ :=
  match fails w with
  | some e => ((0, some e), w)
  | none => ((w.pdeathsig, none), w)

/-- Modelled from the spec: `ParentDeathSignal.Restore` (package system is
not among the sources), "restore parent-death-signal registration captured in
step 13".  `fails` decides whether the call fails; on success the registration
of the process is the receiver `p`. -/
def Restore {σ : Type} (fails : ParentDeathSignal → World σ → Option Error)
    (p : ParentDeathSignal) (w : World σ) : Option Error × World σ :=
  match fails p w with
  | some e => (some e, w)
  | none => (none, { w with pdeathsig := p })

/-- The collaborators `S` with the parent-death-signal accessors above; all
other operations, `finalizeNamespace` among them, stay arbitrary and may
change the registration in any way. -/
def guardSys {σ : Type} (S : Sys (World σ)) (getFails : World σ → Option Error)
    (restoreFails : ParentDeathSignal → World σ → Option Error) : Sys (World σ) :=
  { S with
    GetParentDeathSignal := GetParentDeathSignal getFails
    Restore := Restore restoreFails }

/-! ## Statements about runs -/

/-- The run of `m` from `p` ends in a result and a process state that
satisfy `Q`. -/
structure Holds {σ α : Type} (m : Run σ α) (p : Proc σ)
    (Q : Except Stop α → Proc σ → Prop) : Prop where
  out : Q (m p).1 (m p).2

/-- Leaving the function with `s`. -/
def stop {σ α : Type} (s : Stop) : Run σ α := fun p => (Except.error s, p)

/-- The events of a loop that called `call` on each path of `paths`, all of
them successfully. -/
def LoopOk {σ : Type} (call : String → Call) (paths : List String)
    (evs : List (Event σ)) : Prop :=
  evs.map Event.entry = paths.map (fun path => (call path, none))

/-- The three guard calls stand next to each other in the trace, and the
registration after the last equals the one captured by the first. -/
def RoundTrip {σ : Type} (tr : List (Event (World σ))) : Prop :=
  ∃ (pre : List (Event (World σ))) (eg ef er : Event (World σ))
    (post : List (Event (World σ))),
    tr = pre ++ eg :: ef :: er :: post ∧
    eg.call = Call.GetParentDeathSignal eg.post.pdeathsig ∧ eg.err = none ∧
    ef.call.op = Op.finalizeNamespace ∧ ef.err = none ∧
    er.call = Call.Restore eg.post.pdeathsig ∧ er.err = none ∧
    er.post.pdeathsig = eg.post.pdeathsig ∧
    only [Op.GetParentDeathSignal, Op.finalizeNamespace, Op.Restore] (calls pre) = [] ∧
    only [Op.GetParentDeathSignal, Op.finalizeNamespace, Op.Restore] (calls post) = []

/-! ## Traces that record what the collaborators did -/

/-- The entry a call leaves in the trace when the collaborator of `S` it names
is applied to the world `w` on the arguments the call carries: the call (with
the value the collaborator returned, for the calls that produce one), the
error returned and the world left behind. -/
def Sys.apply {σ : Type} (S : Sys σ) (c : Call) (w : σ) : Event σ :=
  match c with
  | Call.joinExistingNamespaces ns =>
    ⟨Call.joinExistingNamespaces ns, (S.joinExistingNamespaces ns w).1,
      (S.joinExistingNamespaces ns w).2⟩
  | Call.dupStdio console =>
    ⟨Call.dupStdio console, (S.dupStdio console w).1, (S.dupStdio console w).2⟩
  | Call.Setsid => ⟨Call.Setsid, (S.Setsid w).1, (S.Setsid w).2⟩
  | Call.Setctty => ⟨Call.Setctty, (S.Setctty w).1, (S.Setctty w).2⟩
  | Call.setupRlimits config =>
    ⟨Call.setupRlimits config, (S.setupRlimits config w).1, (S.setupRlimits config w).2⟩
  | Call.setupRootfs config =>
    ⟨Call.setupRootfs config, (S.setupRootfs config w).1, (S.setupRootfs config w).2⟩
  | Call.Sethostname p => ⟨Call.Sethostname p, (S.Sethostname p w).1, (S.Sethostname p w).2⟩
  | Call.ApplyProfile name =>
    ⟨Call.ApplyProfile name, (S.ApplyProfile name w).1, (S.ApplyProfile name w).2⟩
  | Call.SetProcessLabel label =>
    ⟨Call.SetProcessLabel label, (S.SetProcessLabel label w).1, (S.SetProcessLabel label w).2⟩
  | Call.remountReadonly path =>
    ⟨Call.remountReadonly path, (S.remountReadonly path w).1, (S.remountReadonly path w).2⟩
  | Call.maskFile path => ⟨Call.maskFile path, (S.maskFile path w).1, (S.maskFile path w).2⟩
  | Call.GetParentDeathSignal _ =>
    ⟨Call.GetParentDeathSignal (S.GetParentDeathSignal w).1.1, (S.GetParentDeathSignal w).1.2,
      (S.GetParentDeathSignal w).2⟩
  | Call.finalizeNamespace config =>
    ⟨Call.finalizeNamespace config, (S.finalizeNamespace config w).1,
      (S.finalizeNamespace config w).2⟩
  | Call.Restore p => ⟨Call.Restore p, (S.Restore p w).1, (S.Restore p w).2⟩
  | Call.Getppid _ => ⟨Call.Getppid (S.Getppid w).1, none, (S.Getppid w).2⟩
  | Call.Getpid _ => ⟨Call.Getpid (S.Getpid w).1, none, (S.Getpid w).2⟩
  | Call.Kill pid sig => ⟨Call.Kill pid sig, (S.Kill pid sig w).1, (S.Kill pid sig w).2⟩
  | Call.Execv cmd args env =>
    ⟨Call.Execv cmd args env, (S.Execv cmd args env w).1, (S.Execv cmd args env w).2⟩

/-- The world the last entry of a trace left behind; the starting world `w`
when the trace is empty. -/
def lastWorld {σ : Type} (w : σ) : List (Event σ) → σ
  | [] => w
  | e :: rest => lastWorld e.post rest

/-- The trace `tr` records applications of the collaborators of `S`, one
after the other, starting in the world `w`: every entry, wherever it stands in
the trace, is what the collaborator it names returns on the world that the
entries before it left behind (on `w` for the first entry). -/
def Genuine {σ : Type} (S : Sys σ) (w : σ) (tr : List (Event σ)) : Prop :=
  ∀ (pre : List (Event σ)) (e : Event σ) (post : List (Event σ)),
    tr = pre ++ e :: post → S.apply e.call (lastWorld w pre) = e

/-- The process state `p` came about from the world `w` by applications of the
collaborators of `S`, each of them recorded in the trace: the trace is genuine
and the world of `p` is the one its last entry left behind. -/
structure Faithful {σ : Type} (S : Sys σ) (w : σ) (p : Proc σ) : Prop where
  genuine : Genuine S w p.trace
  world_eq : p.world = lastWorld w p.trace

/-- The statement sequence `m` keeps process states faithful. -/
structure Keeps {σ α : Type} (S : Sys σ) (w : σ) (m : Run σ α) : Prop where
  out : ∀ p, Faithful S w p → Faithful S w (m p).2

/-- Every collaborator of the steps before the orphan check (all but `Kill`
and `Execv`) returns nil, on every argument and in every world. -/
def Sys.AllSucceed {σ : Type} (S : Sys σ) : Prop :=
  ∀ (c : Call) (w : σ), c.op ≠ Op.Kill → c.op ≠ Op.Execv → (S.apply c w).err = none

/-- The parent is alive: `Getppid` never returns 1. -/
def Sys.ParentAlive {σ : Type} (S : Sys σ) : Prop :=
  ∀ w : σ, (S.Getppid w).1 ≠ 1

/-! ## Concrete systems and configurations -/

/-- A system in which every operation succeeds and changes nothing; `Getppid`
returns `ppid`, `Getpid` returns 7 and no parent-death signal is set. -/
def okSys (σ : Type) (ppid : Int) : Sys σ where
  joinExistingNamespaces := fun _ w => (none, w)
  dupStdio := fun _ w => (none, w)
  Setsid := fun w => (none, w)
  Setctty := fun w => (none, w)
  setupRlimits := fun _ w => (none, w)
  setupRootfs := fun _ w => (none, w)
  Sethostname := fun _ w => (none, w)
  ApplyProfile := fun _ w => (none, w)
  SetProcessLabel := fun _ w => (none, w)
  remountReadonly := fun _ w => (none, w)
  maskFile := fun _ w => (none, w)
  GetParentDeathSignal := fun w => ((0, none), w)
  finalizeNamespace := fun _ w => (none, w)
  Restore := fun _ w => (none, w)
  Getppid := fun w => (ppid, w)
  Getpid := fun w => (7, w)
  Kill := fun _ _ w => (none, w)
  Execv := fun _ _ _ w => (none, w)

/-- The system `okSys` in which `Setsid` fails with EPERM. -/
def setsidFails : Sys Unit :=
  { okSys Unit 0 with Setsid := fun w => (some (Error.cause "EPERM"), w) }

/-- The system `okSys` in which `Execv` fails with ENOENT. -/
def execvFails : Sys Unit :=
  { okSys Unit 0 with Execv := fun _ _ _ w => (some (Error.cause "ENOENT"), w) }

/-- The system `okSys` in which `finalizeNamespace` clears the
parent-death-signal registration. -/
def finalizeClears : Sys (World Unit) :=
  { okSys (World Unit) 0 with
    finalizeNamespace := fun _ w => (none, { w with pdeathsig := 0 }) }

/-- The end-to-end scenario of the specification: `/bin/true` with an empty
working directory, no console, no hostname, empty security identifiers, no
paths to protect, in a new mount namespace. -/
def scenarioConfig : initConfig where
  Args := ["/bin/true"]
  Env := ["PATH=/usr/bin"]
  Cwd := ""
  Config :=
    { Namespaces := [⟨NamespaceType.NEWNS, ""⟩]
      Console := ""
      Hostname := ""
      AppArmorProfile := ""
      ProcessLabel := ""
      ReadonlyPaths := []
      MaskPaths := []
      Rlimits := [] }

/-- A configuration with a console, a hostname, a new mount namespace and
paths to protect. -/
def consoleConfig : initConfig where
  Args := ["/bin/sh", "-c", "true"]
  Env := []
  Cwd := "/srv"
  Config :=
    { Namespaces := [⟨NamespaceType.NEWPID, ""⟩, ⟨NamespaceType.NEWNS, ""⟩]
      Console := "/dev/pts/3"
      Hostname := "box"
      AppArmorProfile := "docker-default"
      ProcessLabel := "system_u:system_r:svirt_lxc_net_t:s0"
      ReadonlyPaths := ["/proc/sys", "/proc/irq"]
      MaskPaths := ["/proc/kcore"]
      Rlimits := [] }

/-- The scenario with an empty command line. -/
def emptyArgsConfig : initConfig := { scenarioConfig with Args := [] }

end Libcontainer

/-! ## Package network -/

namespace Libcontainer.network

/-- Modelled from the spec: the values `&Veth{}` and `&Loopback{}` of the
interface `NetworkStrategy` (veth.go and loopback.go are not among the
sources), the built-in strategies `veth` and `loopback`. -/
inductive NetworkStrategy where
  | Veth
  | Loopback
  deriving DecidableEq

/-- The error value `ErrNotValidStrategyType`. -/
def ErrNotValidStrategyType : Error := Error.cause "not a valid network strategy type"

/-- A Go `map[string]NetworkStrategy`, as an association list; a key is
looked up by exact string match. -/
abbrev Registry := List (String × NetworkStrategy)

/-- The keys of a registry. -/
def Registry.keys (r : Registry) : List String := r.map Prod.fst

/-- The package variable `strategies`. -/
def strategies : Registry :=
  [("veth", NetworkStrategy.Veth), ("loopback", NetworkStrategy.Loopback)]

/-- The function `GetStrategy` (network/strategy.go, lines 30-36), run on the
package variable `registry`; it returns the pair `(NetworkStrategy, error)`
(`none` is `nil`) and the package variable after the call. -/
def GetStrategy (registry : Registry) (tpe : String) :
    (Option NetworkStrategy × Option Error) × Registry :=
  match registry.lookup tpe with
  | none => ((none, some ErrNotValidStrategyType), registry)
  | some s => ((some s, none), registry)

end Libcontainer.network

namespace Libcontainer

/-! ## Reasoning rules for runs -/

theorem holds_stop {σ α : Type} (s : Stop) (p : Proc σ)
    (Q : Except Stop α → Proc σ → Prop) (h : Q (Except.error s) p) :
    Holds (stop s) p Q :=
  ⟨h⟩

theorem holds_getConfig_bind {σ β : Type} (k : initConfig → Run σ β) (w : σ)
    (c : initConfig) (tr : List (Event σ)) (Q : Except Stop β → Proc σ → Prop)
    (h : Holds (k c) ⟨w, c, tr⟩ Q) : Holds (getConfig >>= k) ⟨w, c, tr⟩ Q :=
  ⟨h.out⟩

/-- A call whose result is a value that cannot fail. -/
theorem holds_invoke_bind {σ ρ β : Type} (f : σ → ρ × σ) (call : ρ → Call)
    (k : ρ → Run σ β) (w : σ) (c : initConfig)
    (tr : List (Event σ)) (Q : Except Stop β → Proc σ → Prop)
    (h : ∀ (w1 : σ) (r : ρ), Holds (k r) ⟨w1, c, tr ++ [⟨call r, none, w1⟩]⟩ Q) :
    Holds (invoke f call (fun _ => none) >>= k) ⟨w, c, tr⟩ Q :=
  ⟨(h (f w).2 (f w).1).out⟩

/-- A call whose result is an `error`: it returned nil or it returned a
cause. -/
theorem holds_call_bind {σ β : Type} (f : σ → Option Error × σ) (call : Call)
    (k : Option Error → Run σ β) (w : σ) (c : initConfig)
    (tr : List (Event σ)) (Q : Except Stop β → Proc σ → Prop)
    (hnil : ∀ w1 : σ, Holds (k none) ⟨w1, c, tr ++ [⟨call, none, w1⟩]⟩ Q)
    (herr : ∀ (w1 : σ) (e : Error),
      Holds (k (some e)) ⟨w1, c, tr ++ [⟨call, some e, w1⟩]⟩ Q) :
    Holds (invoke f (fun _ => call) id >>= k) ⟨w, c, tr⟩ Q := by
  constructor
  show Q ((k (f w).1) _).1 ((k (f w).1) _).2
  cases h : (f w).1 with
  | none => simpa [h] using (hnil (f w).2).out
  | some e => simpa [h] using (herr (f w).2 e).out

/-- A call whose result is a value and an `error`. -/
theorem holds_call2_bind {σ ρ β : Type} (f : σ → (ρ × Option Error) × σ)
    (call : ρ → Call) (k : ρ × Option Error → Run σ β) (w : σ) (c : initConfig)
    (tr : List (Event σ)) (Q : Except Stop β → Proc σ → Prop)
    (hnil : ∀ (w1 : σ) (v : ρ), Holds (k (v, none)) ⟨w1, c, tr ++ [⟨call v, none, w1⟩]⟩ Q)
    (herr : ∀ (w1 : σ) (v : ρ) (e : Error),
      Holds (k (v, some e)) ⟨w1, c, tr ++ [⟨call v, some e, w1⟩]⟩ Q) :
    Holds (invoke f (fun r => call r.1) (fun r => r.2) >>= k) ⟨w, c, tr⟩ Q := by
  constructor
  show Q ((k (f w).1) _).1 ((k (f w).1) _).2
  rcases h : (f w).1 with ⟨v, _ | e⟩
  · simpa [h] using (hnil (f w).2 v).out
  · simpa [h] using (herr (f w).2 v e).out

theorem holds_check_none_bind {σ β : Type} (k : Unit → Run σ β) (p : Proc σ)
    (Q : Except Stop β → Proc σ → Prop)
    (h : Holds (k ()) p Q) : Holds (check none >>= k) p Q :=
  ⟨h.out⟩

theorem holds_check_some_bind {σ β : Type} (e : Error) (k : Unit → Run σ β) (p : Proc σ)
    (Q : Except Stop β → Proc σ → Prop)
    (h : Q (Except.error (Stop.returned (newSystemError e))) p) :
    Holds (check (some e) >>= k) p Q :=
  ⟨h⟩

theorem holds_ret_none {σ : Type} (p : Proc σ) (Q : Except Stop Unit → Proc σ → Prop)
    (h : Q (Except.ok ()) p) : Holds (ret none) p Q :=
  ⟨h⟩

theorem holds_ret_some {σ : Type} (e : Error) (p : Proc σ)
    (Q : Except Stop Unit → Proc σ → Prop)
    (h : Q (Except.error (Stop.returned e)) p) : Holds (ret (some e)) p Q :=
  ⟨h⟩

theorem holds_index0_bind {σ β : Type} (args : List String)
    (k : String → Run σ β) (p : Proc σ) (Q : Except Stop β → Proc σ → Prop)
    (hnil : args = [] → Holds (stop Stop.panic) p Q)
    (hcons : ∀ (a : String) (rest : List String), args = a :: rest → Holds (k a) p Q) :
    Holds (index0 args >>= k) p Q := by
  cases args with
  | nil => exact ⟨(hnil rfl).out⟩
  | cons a rest => exact ⟨(hcons a rest rfl).out⟩

theorem holds_ite {σ α : Type} (cond : Prop) [Decidable cond] (m1 m2 : Run σ α)
    (p : Proc σ) (Q : Except Stop α → Proc σ → Prop)
    (h1 : cond → Holds m1 p Q) (h2 : ¬cond → Holds m2 p Q) :
    Holds (if cond then m1 else m2) p Q := by
  by_cases h : cond
  · simpa [h] using h1 h
  · simpa [h] using h2 h

/-- The statement `if l.config.Cwd == "" { l.config.Cwd = "/" }` followed by
the rest of the function. -/
theorem holds_defaultCwd {σ β : Type} (k : Unit → Run σ β) (w : σ)
    (c : initConfig) (tr : List (Event σ)) (Q : Except Stop β → Proc σ → Prop)
    (h : Holds (k ()) ⟨w, { c with Cwd := effectiveCwd c }, tr⟩ Q) :
    Holds (if c.Cwd = "" then setCwd "/" >>= k else pure PUnit.unit >>= k) ⟨w, c, tr⟩ Q := by
  unfold effectiveCwd at h
  by_cases hc : c.Cwd = ""
  · simp only [hc, if_true] at h ⊢
    exact ⟨h.out⟩
  · simp only [hc, if_false] at h ⊢
    exact ⟨h.out⟩

/-- A guarded call, `if cond { if err := f(); err != nil { return
newSystemError(err) } }`, followed by the rest of the function: it adds the
call to the trace exactly when `cond` holds. -/
theorem holds_when_bind {σ β : Type} (cond : Prop) [Decidable cond]
    (f : σ → Option Error × σ) (call : Call) (k : Unit → Run σ β) (w : σ)
    (c : initConfig) (tr : List (Event σ)) (Q : Except Stop β → Proc σ → Prop)
    (hok : ∀ (w1 : σ) (evs : List (Event σ)),
      evs.map Event.entry = (if cond then [(call, none)] else []) →
      evs.map Event.call = (if cond then [call] else []) →
      Holds (k ()) ⟨w1, c, tr ++ evs⟩ Q)
    (herr : cond → ∀ (w1 : σ) (e : Error),
      Holds (stop (Stop.returned (newSystemError e)))
        ⟨w1, c, tr ++ [⟨call, some e, w1⟩]⟩ Q) :
    Holds (if cond then invoke f (fun _ => call) id >>= fun err => check err >>= k
      else pure PUnit.unit >>= k) ⟨w, c, tr⟩ Q := by
  by_cases hc : cond
  · simp only [hc, if_true] at hok ⊢
    apply holds_call_bind
    · intro w1
      exact ⟨(hok w1 [⟨call, none, w1⟩] rfl rfl).out⟩
    · intro w1 e
      exact ⟨(herr hc w1 e).out⟩
  · simp only [hc, if_false] at hok ⊢
    have := hok w [] rfl rfl
    exact ⟨by simpa using this.out⟩

theorem LoopOk.calls_eq {σ : Type} {call : String → Call} {paths : List String}
    {evs : List (Event σ)} (h : LoopOk call paths evs) :
    evs.map Event.call = paths.map call := by
  have := congrArg (List.map Prod.fst) h
  simpa [List.map_map, Function.comp_def, Event.entry] using this

theorem rangeCheck_holds {σ β : Type} (f : String → σ → Option Error × σ)
    (call : String → Call) (k : Unit → Run σ β) (c : initConfig)
    (Q : Except Stop β → Proc σ → Prop) :
    ∀ (paths done : List String) (w : σ) (tr evs0 : List (Event σ)),
      LoopOk call done evs0 →
      (∀ (w1 : σ) (evs : List (Event σ)), LoopOk call (done ++ paths) evs →
        Holds (k ()) ⟨w1, c, tr ++ evs⟩ Q) →
      (∀ (w1 : σ) (evs : List (Event σ)) (pre post : List String) (path : String)
        (e : Error), done ++ paths = pre ++ path :: post → LoopOk call pre evs →
        Q (Except.error (Stop.returned (newSystemError e)))
          ⟨w1, c, tr ++ evs ++ [⟨call path, some e, w1⟩]⟩) →
      Holds (rangeCheck f call paths >>= k) ⟨w, c, tr ++ evs0⟩ Q := by
  intro paths
  induction paths with
  | nil =>
    intro done w tr evs0 h0 hok _
    have := hok w evs0 (by simpa using h0)
    exact ⟨this.out⟩
  | cons path rest ih =>
    intro done w tr evs0 h0 hok hfail
    have key : ∀ (w1 : σ) (r : Option Error),
        Holds ((check r >>= fun _ => rangeCheck f call rest) >>= k)
          ⟨w1, c, tr ++ evs0 ++ [⟨call path, r, w1⟩]⟩ Q := by
      intro w1 r
      cases r with
      | some e =>
        exact ⟨hfail w1 evs0 done rest path e rfl h0⟩
      | none =>
        have h1 : LoopOk call (done ++ [path]) (evs0 ++ [⟨call path, none, w1⟩]) := by
          unfold LoopOk at h0 ⊢
          simp [h0, Event.entry]
        have := ih (done ++ [path]) w1 tr (evs0 ++ [⟨call path, none, w1⟩]) h1
          (by simpa using hok) (by simpa using hfail)
        exact ⟨by simpa [List.append_assoc] using this.out⟩
    exact ⟨(key (f path w).2 (f path w).1).out⟩

/-- The loop over `paths` either calls `call` on every path successfully, or
stops at the first path whose call fails, returning the wrapped cause. -/
theorem holds_rangeCheck_bind {σ β : Type} (f : String → σ → Option Error × σ)
    (call : String → Call) (paths : List String) (k : Unit → Run σ β) (w : σ)
    (c : initConfig) (tr : List (Event σ)) (Q : Except Stop β → Proc σ → Prop)
    (hok : ∀ (w1 : σ) (evs : List (Event σ)),
      evs.map Event.entry = paths.map (fun path => (call path, none)) →
      evs.map Event.call = paths.map call →
      Holds (k ()) ⟨w1, c, tr ++ evs⟩ Q)
    (hfail : ∀ (w1 : σ) (evs : List (Event σ)) (pre post : List String) (path : String)
      (e : Error), paths = pre ++ path :: post →
      evs.map Event.entry = pre.map (fun path => (call path, none)) →
      evs.map Event.call = pre.map call →
      Holds (stop (Stop.returned (newSystemError e)))
        ⟨w1, c, tr ++ evs ++ [⟨call path, some e, w1⟩]⟩ Q) :
    Holds (rangeCheck f call paths >>= k) ⟨w, c, tr⟩ Q := by
  have := rangeCheck_holds f call k c Q paths [] w tr [] (by simp [LoopOk])
    (fun w1 evs h => hok w1 evs (by simpa [LoopOk] using h) (by simpa using h.calls_eq))
    (fun w1 evs pre post path e hp h =>
      (hfail w1 evs pre post path e (by simpa using hp) h h.calls_eq).out)
  simpa using this

/-! ## Reading the calls of a trace -/

/-- The operation of each kind of call. -/
theorem op_eqs :
    (∀ a, (Call.joinExistingNamespaces a).op = Op.joinExistingNamespaces) ∧
    (∀ a, (Call.dupStdio a).op = Op.dupStdio) ∧
    Call.Setsid.op = Op.Setsid ∧
    Call.Setctty.op = Op.Setctty ∧
    (∀ a, (Call.setupRlimits a).op = Op.setupRlimits) ∧
    (∀ a, (Call.setupRootfs a).op = Op.setupRootfs) ∧
    (∀ a, (Call.Sethostname a).op = Op.Sethostname) ∧
    (∀ a, (Call.ApplyProfile a).op = Op.ApplyProfile) ∧
    (∀ a, (Call.SetProcessLabel a).op = Op.SetProcessLabel) ∧
    (∀ a, (Call.remountReadonly a).op = Op.remountReadonly) ∧
    (∀ a, (Call.maskFile a).op = Op.maskFile) ∧
    (∀ a, (Call.GetParentDeathSignal a).op = Op.GetParentDeathSignal) ∧
    (∀ a, (Call.finalizeNamespace a).op = Op.finalizeNamespace) ∧
    (∀ a, (Call.Restore a).op = Op.Restore) ∧
    (∀ a, (Call.Getppid a).op = Op.Getppid) ∧
    (∀ a, (Call.Getpid a).op = Op.Getpid) ∧
    (∀ a b, (Call.Kill a b).op = Op.Kill) ∧
    (∀ a b d, (Call.Execv a b d).op = Op.Execv) := by
  simp [Call.op]

theorem only_append (ops : List Op) (a b : List Call) :
    only ops (a ++ b) = only ops a ++ only ops b := by
  simp [only]

theorem only_nil (ops : List Op) : only ops [] = [] := rfl

theorem only_cons (ops : List Op) (a : Call) (b : List Call) :
    only ops (a :: b) = if a.op ∈ ops then a :: only ops b else only ops b := by
  simp [only, List.filter_cons]

theorem only_ite (ops : List Op) (cond : Prop) [Decidable cond] (a : List Call) :
    only ops (if cond then a else []) = if cond then only ops a else [] := by
  split <;> simp [only]

theorem only_map (ops : List Op) (call : String → Call) (o : Op)
    (h : ∀ path, (call path).op = o) (paths : List String) :
    only ops (paths.map call) = if o ∈ ops then paths.map call else [] := by
  induction paths with
  | nil => simp [only]
  | cons a rest ih =>
    rw [List.map_cons, only_cons, ih, h]
    split <;> simp

theorem only_map_remountReadonly (ops : List Op) (paths : List String) :
    only ops (paths.map Call.remountReadonly) =
      if Op.remountReadonly ∈ ops then paths.map Call.remountReadonly else [] :=
  only_map ops Call.remountReadonly Op.remountReadonly (fun _ => rfl) paths

theorem only_map_maskFile (ops : List Op) (paths : List String) :
    only ops (paths.map Call.maskFile) =
      if Op.maskFile ∈ ops then paths.map Call.maskFile else [] :=
  only_map ops Call.maskFile Op.maskFile (fun _ => rfl) paths

theorem succeeded_iff {σ : Type} (tr : List (Event σ)) (o : Op) :
    Succeeded tr o ↔ o ∈ okOps (log tr) := by
  simp only [Succeeded, okOps, List.mem_filterMap]
  constructor
  · rintro ⟨x, hx, h1, h2⟩
    exact ⟨x, hx, by simp [h1, h2]⟩
  · rintro ⟨x, hx, h⟩
    refine ⟨x, hx, ?_⟩
    split at h <;> simp_all

theorem okOps_append (a b : List (Call × Option Error)) :
    okOps (a ++ b) = okOps a ++ okOps b := by
  simp [okOps]

theorem okOps_nil : okOps [] = [] := rfl

theorem okOps_cons_none (c : Call) (l : List (Call × Option Error)) :
    okOps ((c, none) :: l) = c.op :: okOps l := by
  simp [okOps]

theorem okOps_cons_some (c : Call) (e : Error) (l : List (Call × Option Error)) :
    okOps ((c, some e) :: l) = okOps l := by
  simp [okOps]

theorem okOps_ite (cond : Prop) [Decidable cond] (a : List (Call × Option Error)) :
    okOps (if cond then a else []) = if cond then okOps a else [] := by
  split <;> simp [okOps]

theorem okOps_map (call : String → Call) (paths : List String) :
    okOps (paths.map (fun path => (call path, none))) = paths.map (fun path => (call path).op) := by
  induction paths with
  | nil => rfl
  | cons a rest ih => rw [List.map_cons, okOps_cons_none, ih, List.map_cons]

theorem failed_iff {σ : Type} (tr : List (Event σ)) (o : Op) :
    Failed tr o ↔ o ∈ failedOps (log tr) := by
  simp only [Failed, failedOps, List.mem_filterMap]
  constructor
  · rintro ⟨x, hx, h1, h2⟩
    exact ⟨x, hx, by simp [h1, h2]⟩
  · rintro ⟨x, hx, h⟩
    refine ⟨x, hx, ?_⟩
    split at h <;> simp_all

theorem failedOps_append (a b : List (Call × Option Error)) :
    failedOps (a ++ b) = failedOps a ++ failedOps b := by
  simp [failedOps]

theorem failedOps_nil : failedOps [] = [] := rfl

theorem failedOps_cons_none (c : Call) (l : List (Call × Option Error)) :
    failedOps ((c, none) :: l) = failedOps l := by
  simp [failedOps]

theorem failedOps_cons_some (c : Call) (e : Error) (l : List (Call × Option Error)) :
    failedOps ((c, some e) :: l) = c.op :: failedOps l := by
  simp [failedOps]

theorem failedOps_ite (cond : Prop) [Decidable cond] (a : List (Call × Option Error)) :
    failedOps (if cond then a else []) = if cond then failedOps a else [] := by
  split <;> simp [failedOps]

theorem failedOps_map (call : String → Call) (paths : List String) :
    failedOps (paths.map (fun path => (call path, none))) = [] := by
  induction paths with
  | nil => rfl
  | cons a rest ih => rw [List.map_cons, failedOps_cons_none, ih]

/-! ## Rules for the parent-death-signal guard -/

/-- Capturing the registration: the call returns the registration of the
current world and leaves the world as it is. -/
theorem holds_GetParentDeathSignal_bind {σ β : Type} (fails : World σ → Option Error)
    (k : ParentDeathSignal × Option Error → Run (World σ) β) (w : World σ) (c : initConfig)
    (tr : List (Event (World σ))) (Q : Except Stop β → Proc (World σ) → Prop)
    (hnil : Holds (k (w.pdeathsig, none))
      ⟨w, c, tr ++ [⟨Call.GetParentDeathSignal w.pdeathsig, none, w⟩]⟩ Q)
    (herr : ∀ e : Error, Holds (k (0, some e))
      ⟨w, c, tr ++ [⟨Call.GetParentDeathSignal 0, some e, w⟩]⟩ Q) :
    Holds (invoke (GetParentDeathSignal fails) (fun r => Call.GetParentDeathSignal r.1)
      (fun r => r.2) >>= k) ⟨w, c, tr⟩ Q := by
  constructor
  show Q ((k (GetParentDeathSignal fails w).1) _).1 ((k (GetParentDeathSignal fails w).1) _).2
  unfold GetParentDeathSignal
  cases h : fails w with
  | none => simpa [h] using hnil.out
  | some e => simpa [h] using (herr e).out

/-- Restoring the registration: on success the registration of the world is
the receiver. -/
theorem holds_Restore_bind {σ β : Type} (fails : ParentDeathSignal → World σ → Option Error)
    (p : ParentDeathSignal) (k : Option Error → Run (World σ) β) (w : World σ)
    (c : initConfig) (tr : List (Event (World σ)))
    (Q : Except Stop β → Proc (World σ) → Prop)
    (hnil : Holds (k none)
      ⟨{ w with pdeathsig := p }, c,
        tr ++ [⟨Call.Restore p, none, { w with pdeathsig := p }⟩]⟩ Q)
    (herr : ∀ e : Error, Holds (k (some e)) ⟨w, c, tr ++ [⟨Call.Restore p, some e, w⟩]⟩ Q) :
    Holds (invoke (Restore fails p) (fun _ => Call.Restore p) id >>= k) ⟨w, c, tr⟩ Q := by
  constructor
  show Q ((k (Restore fails p w).1) _).1 ((k (Restore fails p w).1) _).2
  unfold Restore
  cases h : fails p w with
  | none => simpa [h] using hnil.out
  | some e => simpa [h] using (herr e).out

theorem roundTrip_base {σ : Type} (T : List (Event (World σ))) (wg wf : World σ)
    (l : initConfig)
    (hT : only [Op.GetParentDeathSignal, Op.finalizeNamespace, Op.Restore] (calls T) = []) :
    RoundTrip (T ++ [⟨Call.GetParentDeathSignal wg.pdeathsig, none, wg⟩] ++
      [⟨Call.finalizeNamespace l, none, wf⟩] ++
      [⟨Call.Restore wg.pdeathsig, none, { wf with pdeathsig := wg.pdeathsig }⟩]) :=
  ⟨T, ⟨Call.GetParentDeathSignal wg.pdeathsig, none, wg⟩, ⟨Call.finalizeNamespace l, none, wf⟩,
    ⟨Call.Restore wg.pdeathsig, none, { wf with pdeathsig := wg.pdeathsig }⟩, [],
    by simp, rfl, rfl, rfl, rfl, rfl, rfl, rfl, hT, rfl⟩

theorem roundTrip_snoc {σ : Type} (tr : List (Event (World σ))) (e : Event (World σ))
    (h : RoundTrip tr)
    (he : only [Op.GetParentDeathSignal, Op.finalizeNamespace, Op.Restore] [e.call] = []) :
    RoundTrip (tr ++ [e]) := by
  obtain ⟨pre, eg, ef, er, post, h1, h2, h3, h4, h5, h6, h7, h8, h9, h10⟩ := h
  refine ⟨pre, eg, ef, er, post ++ [e], by simp [h1], h2, h3, h4, h5, h6, h7, h8, h9, ?_⟩
  simp only [calls, List.map_append, List.map_cons, List.map_nil, only_append] at h10 ⊢
  rw [h10, he]
  rfl

/-! ## Every logged call is a collaborator at work -/

theorem lastWorld_append {σ : Type} (w : σ) (tr : List (Event σ)) (e : Event σ) :
    lastWorld w (tr ++ [e]) = e.post := by
  induction tr generalizing w with
  | nil => rfl
  | cons a rest ih => exact ih a.post

theorem lastWorld_cons {σ : Type} (w : σ) (a : Event σ) (tr : List (Event σ)) :
    lastWorld w (a :: tr) = lastWorld a.post tr := rfl

theorem genuine_nil {σ : Type} (S : Sys σ) (w : σ) : Genuine S w [] := by
  intro pre e post h
  simp at h

theorem genuine_cons {σ : Type} (S : Sys σ) (w : σ) (a : Event σ) (tr : List (Event σ)) :
    Genuine S w (a :: tr) ↔ S.apply a.call w = a ∧ Genuine S a.post tr := by
  constructor
  · intro h
    refine ⟨h [] a tr rfl, ?_⟩
    intro pre e post hp
    have := h (a :: pre) e post (by rw [hp]; rfl)
    rwa [lastWorld_cons] at this
  · rintro ⟨h1, h2⟩ pre e post hp
    cases pre with
    | nil =>
      simp only [List.nil_append, List.cons.injEq] at hp
      rw [← hp.1]
      exact h1
    | cons b pre1 =>
      simp only [List.cons_append, List.cons.injEq] at hp
      rw [lastWorld_cons, ← hp.1]
      exact h2 pre1 e post hp.2

theorem genuine_append {σ : Type} (S : Sys σ) (w : σ) (tr : List (Event σ)) (e : Event σ) :
    Genuine S w (tr ++ [e]) ↔ Genuine S w tr ∧ S.apply e.call (lastWorld w tr) = e := by
  induction tr generalizing w with
  | nil =>
    rw [List.nil_append, genuine_cons]
    exact ⟨fun h => ⟨genuine_nil S w, h.1⟩, fun h => ⟨h.2, genuine_nil S _⟩⟩
  | cons a rest ih =>
    rw [List.cons_append, genuine_cons, genuine_cons, ih, lastWorld_cons, and_assoc]

theorem keeps_bind {σ α β : Type} (S : Sys σ) (w : σ) (m : Run σ α) (k : α → Run σ β)
    (hm : Keeps S w m) (hk : ∀ a, Keeps S w (k a)) : Keeps S w (m >>= k) := by
  constructor
  intro p hp
  have h1 := hm.out p hp
  show Faithful S w (Run.bind m k p).2
  unfold Run.bind
  rcases hmp : m p with ⟨_ | a, q⟩
  · rw [hmp] at h1
    exact h1
  · rw [hmp] at h1
    exact (hk a).out q h1

theorem keeps_getConfig {σ : Type} (S : Sys σ) (w : σ) : Keeps S w (getConfig : Run σ _) :=
  ⟨fun _ h => h⟩

theorem keeps_pure {σ α : Type} (S : Sys σ) (w : σ) (a : α) : Keeps S w (pure a : Run σ α) :=
  ⟨fun _ h => h⟩

theorem keeps_setCwd {σ : Type} (S : Sys σ) (w : σ) (cwd : String) :
    Keeps S w (setCwd cwd : Run σ Unit) :=
  ⟨fun _ h => ⟨h.genuine, h.world_eq⟩⟩

theorem keeps_check {σ : Type} (S : Sys σ) (w : σ) (err : Option Error) :
    Keeps S w (check err : Run σ Unit) := by
  constructor
  intro p h
  cases err <;> exact h

theorem keeps_ret {σ : Type} (S : Sys σ) (w : σ) (err : Option Error) :
    Keeps S w (ret err : Run σ Unit) := by
  constructor
  intro p h
  cases err <;> exact h

theorem keeps_index0 {σ : Type} (S : Sys σ) (w : σ) (args : List String) :
    Keeps S w (index0 args : Run σ String) := by
  constructor
  intro p h
  cases args <;> exact h

theorem keeps_ite {σ α : Type} (S : Sys σ) (w : σ) (cond : Prop) [Decidable cond]
    (m1 m2 : Run σ α) (h1 : Keeps S w m1) (h2 : Keeps S w m2) :
    Keeps S w (if cond then m1 else m2) := by
  split
  · exact h1
  · exact h2

/-- A call keeps the process state faithful when the function called is the
collaborator of `S` that the logged call names. -/
theorem keeps_invoke {σ ρ : Type} (S : Sys σ) (w : σ) (f : σ → ρ × σ) (call : ρ → Call)
    (err : ρ → Option Error)
    (h : ∀ w1, S.apply (call (f w1).1) w1 = ⟨call (f w1).1, err (f w1).1, (f w1).2⟩) :
    Keeps S w (invoke f call err) := by
  constructor
  intro p hp
  constructor
  · show Genuine S w (p.trace ++ [_])
    rw [genuine_append]
    refine ⟨hp.genuine, ?_⟩
    rw [← hp.world_eq]
    exact h p.world
  · show (f p.world).2 = lastWorld w (p.trace ++ [_])
    rw [lastWorld_append]

theorem keeps_rangeCheck {σ : Type} (S : Sys σ) (w : σ) (f : String → σ → Option Error × σ)
    (call : String → Call)
    (h : ∀ path w1, S.apply (call path) w1 = ⟨call path, (f path w1).1, (f path w1).2⟩)
    (paths : List String) : Keeps S w (rangeCheck f call paths) := by
  induction paths with
  | nil => exact keeps_pure S w ()
  | cons path rest ih =>
    unfold rangeCheck
    apply keeps_bind
    · exact keeps_invoke S w _ _ _ (h path)
    · intro err
      apply keeps_bind
      · exact keeps_check S w err
      · intro _
        exact ih

set_option maxHeartbeats 4000000 in
/-- Every statement of `Init` keeps the process state faithful: each entry it
logs is the collaborator of `S` applied to the current world, and the world
is changed by nothing else. -/
theorem Init_keeps {σ : Type} (S : Sys σ) (w : σ) : Keeps S w (Init S) := by
  unfold Init
  dsimp only
  repeat' first
    | intro _
    | with_reducible apply keeps_bind
    | with_reducible apply keeps_ite
    | with_reducible exact keeps_getConfig S w
    | with_reducible exact keeps_pure S w _
    | with_reducible exact keeps_setCwd S w _
    | with_reducible exact keeps_check S w _
    | with_reducible exact keeps_ret S w _
    | with_reducible exact keeps_index0 S w _
    | exact keeps_invoke S w _ _ _ (fun _ => rfl)
    | exact keeps_rangeCheck S w _ _ (fun _ _ => rfl) _

/-- The trace of a run of `Init` is genuine, and the world at the end of the
run is the one the last call left behind. -/
theorem Init_faithful {σ : Type} (S : Sys σ) (w : σ) (c : initConfig) :
    Genuine S w (runInit S w c).2.trace ∧
      (runInit S w c).2.world = lastWorld w (runInit S w c).2.trace := by
  have h := (Init_keeps S w).out ⟨w, c, []⟩ ⟨genuine_nil S w, rfl⟩
  exact ⟨h.genuine, h.world_eq⟩

/-- In a genuine trace over collaborators that all succeed, only `Kill` and
`Execv` can have returned a cause. -/
theorem genuine_failedOps {σ : Type} (S : Sys σ) (h : S.AllSucceed) (tr : List (Event σ)) :
    ∀ w, Genuine S w tr → ∀ o ∈ failedOps (log tr), o = Op.Kill ∨ o = Op.Execv := by
  induction tr with
  | nil =>
    intro w _ o ho
    simp [log, failedOps] at ho
  | cons e rest ih =>
    intro w hg o ho
    obtain ⟨he, hrest⟩ := (genuine_cons S w e rest).1 hg
    cases herr : e.err with
    | none =>
      have hl : failedOps (log (e :: rest)) = failedOps (log rest) := by
        simp [log, Event.entry, herr, failedOps_cons_none]
      rw [hl] at ho
      exact ih e.post hrest o ho
    | some x =>
      have hl : failedOps (log (e :: rest)) = e.call.op :: failedOps (log rest) := by
        simp [log, Event.entry, herr, failedOps_cons_some]
      rw [hl] at ho
      rcases List.mem_cons.1 ho with rfl | ho
      · by_contra hne
        push_neg at hne
        have hnone := h e.call w hne.1 hne.2
        rw [he, herr] at hnone
        cases hnone
      · exact ih e.post hrest o ho

/-- In a genuine trace over a `Getppid` that never returns 1, no call of
`Getppid` returned 1. -/
theorem genuine_getppid {σ : Type} (S : Sys σ) (h : S.ParentAlive) (tr : List (Event σ)) :
    ∀ w, Genuine S w tr → ∀ n, Call.Getppid n ∈ calls tr → n ≠ 1 := by
  induction tr with
  | nil =>
    intro w _ n hn
    simp [calls] at hn
  | cons e rest ih =>
    intro w hg n hn
    obtain ⟨he, hrest⟩ := (genuine_cons S w e rest).1 hg
    simp only [calls, List.map_cons, List.mem_cons] at hn
    rcases hn with hn | hn
    · have h1 : (S.apply e.call w).call = e.call := by rw [he]
      rw [← hn] at h1
      have h2 : n = (S.Getppid w).1 := by
        simpa [Sys.apply] using h1.symm
      rw [h2]
      exact h w
    · exact ih e.post hrest n hn

/-- The last entry of a genuine trace is the collaborator it names applied to
the world the entries before it left behind. -/
theorem genuine_last {σ : Type} (S : Sys σ) (w : σ) (tr : List (Event σ)) (call : Call)
    (err : Option Error) (hg : Genuine S w tr)
    (hlast : (log tr).getLast? = some (call, err)) :
    ∃ pre, tr = pre ++ [S.apply call (lastWorld w pre)] ∧
      (S.apply call (lastWorld w pre)).err = err := by
  rcases List.eq_nil_or_concat tr with rfl | ⟨pre, e, rfl⟩
  · simp [log] at hlast
  · rw [List.concat_eq_append] at hg hlast ⊢
    rw [genuine_append] at hg
    simp only [log, List.map_append, List.map_cons, List.map_nil, List.getLast?_concat,
      Option.some.injEq, Event.entry, Prod.mk.injEq] at hlast
    obtain ⟨h1, h2⟩ := hlast
    refine ⟨pre, ?_, ?_⟩
    · rw [← h1, hg.2]
    · rw [← h1, hg.2, h2]

/-! ## Concrete runs -/

/-- The run of the scenario when every collaborator succeeds and the parent
is alive. -/
theorem run_scenario :
    runInit (okSys Unit 0) () scenarioConfig =
      (Except.ok (),
        ⟨(), { scenarioConfig with Cwd := "/" },
          [⟨Call.joinExistingNamespaces scenarioConfig.Config.Namespaces, none, ()⟩,
            ⟨Call.Setsid, none, ()⟩,
            ⟨Call.setupRlimits scenarioConfig.Config, none, ()⟩,
            ⟨Call.setupRootfs scenarioConfig.Config, none, ()⟩,
            ⟨Call.ApplyProfile "", none, ()⟩,
            ⟨Call.SetProcessLabel "", none, ()⟩,
            ⟨Call.GetParentDeathSignal 0, none, ()⟩,
            ⟨Call.finalizeNamespace { scenarioConfig with Cwd := "/" }, none, ()⟩,
            ⟨Call.Restore 0, none, ()⟩,
            ⟨Call.Getppid 0, none, ()⟩,
            ⟨Call.Execv "/bin/true" ["/bin/true"] ["PATH=/usr/bin"], none, ()⟩]⟩) := by
  simp [runInit, Init, okSys, scenarioConfig, getConfig, invoke, check, ret,
    index0, rangeCheck, bind, Run.bind, pure, Run.pure, newConsoleFromPath, setCwd,
    Namespaces.Contains]

/-- The run of the scenario when every collaborator succeeds and the parent
is gone. -/
theorem run_scenario_orphan :
    runInit (okSys Unit 1) () scenarioConfig =
      (Except.ok (),
        ⟨(), { scenarioConfig with Cwd := "/" },
          [⟨Call.joinExistingNamespaces scenarioConfig.Config.Namespaces, none, ()⟩,
            ⟨Call.Setsid, none, ()⟩,
            ⟨Call.setupRlimits scenarioConfig.Config, none, ()⟩,
            ⟨Call.setupRootfs scenarioConfig.Config, none, ()⟩,
            ⟨Call.ApplyProfile "", none, ()⟩,
            ⟨Call.SetProcessLabel "", none, ()⟩,
            ⟨Call.GetParentDeathSignal 0, none, ()⟩,
            ⟨Call.finalizeNamespace { scenarioConfig with Cwd := "/" }, none, ()⟩,
            ⟨Call.Restore 0, none, ()⟩,
            ⟨Call.Getppid 1, none, ()⟩,
            ⟨Call.Getpid 7, none, ()⟩,
            ⟨Call.Kill 7 SIGKILL, none, ()⟩]⟩) := by
  simp [runInit, Init, okSys, scenarioConfig, getConfig, invoke, check, ret,
    index0, rangeCheck, bind, Run.bind, pure, Run.pure, newConsoleFromPath, setCwd,
    Namespaces.Contains]

/-- The run of the scenario when `Setsid` fails. -/
theorem run_setsidFails :
    runInit setsidFails () scenarioConfig =
      (Except.error (Stop.returned (newSystemError (Error.cause "EPERM"))),
        ⟨(), scenarioConfig,
          [⟨Call.joinExistingNamespaces scenarioConfig.Config.Namespaces, none, ()⟩,
            ⟨Call.Setsid, some (Error.cause "EPERM"), ()⟩]⟩) := by
  simp [runInit, Init, okSys, setsidFails, scenarioConfig, getConfig, invoke, check, ret,
    index0, rangeCheck, bind, Run.bind, pure, Run.pure, newConsoleFromPath, setCwd,
    Namespaces.Contains]

/-- The run of the scenario when `Execv` fails. -/
theorem run_execvFails :
    runInit execvFails () scenarioConfig =
      (Except.error (Stop.returned (Error.cause "ENOENT")),
        ⟨(), { scenarioConfig with Cwd := "/" },
          [⟨Call.joinExistingNamespaces scenarioConfig.Config.Namespaces, none, ()⟩,
            ⟨Call.Setsid, none, ()⟩,
            ⟨Call.setupRlimits scenarioConfig.Config, none, ()⟩,
            ⟨Call.setupRootfs scenarioConfig.Config, none, ()⟩,
            ⟨Call.ApplyProfile "", none, ()⟩,
            ⟨Call.SetProcessLabel "", none, ()⟩,
            ⟨Call.GetParentDeathSignal 0, none, ()⟩,
            ⟨Call.finalizeNamespace { scenarioConfig with Cwd := "/" }, none, ()⟩,
            ⟨Call.Restore 0, none, ()⟩,
            ⟨Call.Getppid 0, none, ()⟩,
            ⟨Call.Execv "/bin/true" ["/bin/true"] ["PATH=/usr/bin"],
              some (Error.cause "ENOENT"), ()⟩]⟩) := by
  simp [runInit, Init, okSys, execvFails, scenarioConfig, getConfig, invoke, check, ret,
    index0, rangeCheck, bind, Run.bind, pure, Run.pure, newConsoleFromPath, setCwd,
    Namespaces.Contains]

/-- The run of the configuration with a console when every collaborator
succeeds and the parent is alive. -/
theorem run_console :
    runInit (okSys Unit 0) () consoleConfig =
      (Except.ok (),
        ⟨(), consoleConfig,
          [⟨Call.joinExistingNamespaces consoleConfig.Config.Namespaces, none, ()⟩,
            ⟨Call.dupStdio (newConsoleFromPath "/dev/pts/3"), none, ()⟩,
            ⟨Call.Setsid, none, ()⟩,
            ⟨Call.Setctty, none, ()⟩,
            ⟨Call.setupRlimits consoleConfig.Config, none, ()⟩,
            ⟨Call.setupRootfs consoleConfig.Config, none, ()⟩,
            ⟨Call.Sethostname "box".toUTF8.toList, none, ()⟩,
            ⟨Call.ApplyProfile "docker-default", none, ()⟩,
            ⟨Call.SetProcessLabel "system_u:system_r:svirt_lxc_net_t:s0", none, ()⟩,
            ⟨Call.remountReadonly "/proc/sys", none, ()⟩,
            ⟨Call.remountReadonly "/proc/irq", none, ()⟩,
            ⟨Call.maskFile "/proc/kcore", none, ()⟩,
            ⟨Call.GetParentDeathSignal 0, none, ()⟩,
            ⟨Call.finalizeNamespace consoleConfig, none, ()⟩,
            ⟨Call.Restore 0, none, ()⟩,
            ⟨Call.Getppid 0, none, ()⟩,
            ⟨Call.Execv "/bin/sh" ["/bin/sh", "-c", "true"] [], none, ()⟩]⟩) := by
  simp [runInit, Init, okSys, consoleConfig, getConfig, invoke, check, ret,
    index0, rangeCheck, bind, Run.bind, pure, Run.pure, newConsoleFromPath, setCwd,
    Namespaces.Contains]

/-- The run of the scenario from a world with registration 9 when
`finalizeNamespace` clears the registration. -/
theorem run_finalizeClears :
    runInit (guardSys finalizeClears (fun _ => none) (fun _ _ => none)) ⟨9, ()⟩ scenarioConfig =
      (Except.ok (),
        ⟨⟨9, ()⟩, { scenarioConfig with Cwd := "/" },
          [⟨Call.joinExistingNamespaces scenarioConfig.Config.Namespaces, none, ⟨9, ()⟩⟩,
            ⟨Call.Setsid, none, ⟨9, ()⟩⟩,
            ⟨Call.setupRlimits scenarioConfig.Config, none, ⟨9, ()⟩⟩,
            ⟨Call.setupRootfs scenarioConfig.Config, none, ⟨9, ()⟩⟩,
            ⟨Call.ApplyProfile "", none, ⟨9, ()⟩⟩,
            ⟨Call.SetProcessLabel "", none, ⟨9, ()⟩⟩,
            ⟨Call.GetParentDeathSignal 9, none, ⟨9, ()⟩⟩,
            ⟨Call.finalizeNamespace { scenarioConfig with Cwd := "/" }, none, ⟨0, ()⟩⟩,
            ⟨Call.Restore 9, none, ⟨9, ()⟩⟩,
            ⟨Call.Getppid 0, none, ⟨9, ()⟩⟩,
            ⟨Call.Execv "/bin/true" ["/bin/true"] ["PATH=/usr/bin"], none, ⟨9, ()⟩⟩]⟩) := by
  simp [runInit, Init, okSys, finalizeClears, guardSys, GetParentDeathSignal, Restore,
    scenarioConfig, getConfig, invoke, check, ret,
    index0, rangeCheck, bind, Run.bind, pure, Run.pure, newConsoleFromPath, setCwd,
    Namespaces.Contains]

/-- The run on an empty command line when every collaborator succeeds and the
parent is alive: the expression `Args[0]` panics. -/
theorem run_emptyArgs :
    runInit (okSys Unit 0) () emptyArgsConfig =
      (Except.error Stop.panic,
        ⟨(), { emptyArgsConfig with Cwd := "/" },
          [⟨Call.joinExistingNamespaces emptyArgsConfig.Config.Namespaces, none, ()⟩,
            ⟨Call.Setsid, none, ()⟩,
            ⟨Call.setupRlimits emptyArgsConfig.Config, none, ()⟩,
            ⟨Call.setupRootfs emptyArgsConfig.Config, none, ()⟩,
            ⟨Call.ApplyProfile "", none, ()⟩,
            ⟨Call.SetProcessLabel "", none, ()⟩,
            ⟨Call.GetParentDeathSignal 0, none, ()⟩,
            ⟨Call.finalizeNamespace { emptyArgsConfig with Cwd := "/" }, none, ()⟩,
            ⟨Call.Restore 0, none, ()⟩,
            ⟨Call.Getppid 0, none, ()⟩]⟩) := by
  simp [runInit, Init, okSys, emptyArgsConfig, scenarioConfig, getConfig, invoke, check, ret,
    index0, rangeCheck, bind, Run.bind, pure, Run.pure, newConsoleFromPath, setCwd,
    Namespaces.Contains]

/-- The run on an empty command line when every collaborator succeeds and the
parent is gone. -/
theorem run_emptyArgs_orphan :
    runInit (okSys Unit 1) () emptyArgsConfig =
      (Except.ok (),
        ⟨(), { emptyArgsConfig with Cwd := "/" },
          [⟨Call.joinExistingNamespaces emptyArgsConfig.Config.Namespaces, none, ()⟩,
            ⟨Call.Setsid, none, ()⟩,
            ⟨Call.setupRlimits emptyArgsConfig.Config, none, ()⟩,
            ⟨Call.setupRootfs emptyArgsConfig.Config, none, ()⟩,
            ⟨Call.ApplyProfile "", none, ()⟩,
            ⟨Call.SetProcessLabel "", none, ()⟩,
            ⟨Call.GetParentDeathSignal 0, none, ()⟩,
            ⟨Call.finalizeNamespace { emptyArgsConfig with Cwd := "/" }, none, ()⟩,
            ⟨Call.Restore 0, none, ()⟩,
            ⟨Call.Getppid 1, none, ()⟩,
            ⟨Call.Getpid 7, none, ()⟩,
            ⟨Call.Kill 7 SIGKILL, none, ()⟩]⟩) := by
  simp [runInit, Init, okSys, emptyArgsConfig, scenarioConfig, getConfig, invoke, check, ret,
    index0, rangeCheck, bind, Run.bind, pure, Run.pure, newConsoleFromPath, setCwd,
    Namespaces.Contains]

/-! ## Fail-fast -/

set_option maxHeartbeats 4000000 in
/-- Every call of a run of `Init` but the last returned nil, and when the
last one returned a cause `Init` returned an error. -/
theorem Init_all_but_last_ok {σ : Type} (S : Sys σ) (w : σ) (c : initConfig) :
    Holds (Init S) ⟨w, c, []⟩ (fun r p =>
      (∀ x ∈ (log p.trace).dropLast, x.2 = none) ∧
      (∀ x, (log p.trace).getLast? = some x → x.2 ≠ none →
        ∃ err, r = Except.error (Stop.returned err))) := by
  unfold Init
  dsimp only
  repeat' with_reducible first
    | (apply holds_getConfig_bind; dsimp only)
    | apply holds_defaultCwd
    | (apply holds_when_bind <;> intros)
    | apply holds_check_none_bind
    | apply holds_check_some_bind
    | apply holds_ret_none
    | apply holds_ret_some
    | apply holds_stop
    | (apply holds_index0_bind <;> intros)
    | (apply holds_ite <;> intro _)
    | (apply holds_call_bind <;> intros)
    | (apply holds_call2_bind <;> intros)
    | (apply holds_invoke_bind; intros)
    | (apply holds_rangeCheck_bind <;> intros)
  all_goals
    simp only [log, List.map_append, List.map_cons, List.map_nil, Event.entry, *,
      List.dropLast_concat, List.getLast?_concat, List.mem_append, List.mem_singleton,
      List.mem_map, List.mem_ite_nil_right,
      List.not_mem_nil, false_or, Option.some.injEq, forall_eq', ne_eq, not_true_eq_false,
      not_false_eq_true, false_implies, true_implies, forall_eq, forall_eq_or_imp,
      or_imp, forall_and, implies_true, and_true, true_and, and_self,
      Except.error.injEq, Stop.returned.injEq, exists_eq', exists_eq, reduceCtorEq,
      forall_exists_index, and_imp, forall_apply_eq_imp_iff₂]
  all_goals try simp

/-- C1 (fail-fast).  Whatever the collaborators `S` do and whatever the
configuration is: if the log of a run of `Init` splits as `pre ++ x :: post`
and the call `x` returned a cause, then nothing was invoked after it
(`post = []`) and `Init` returned a non-nil error; and if `x` is a call of
`Execv`, every call before it returned nil. -/
theorem Init_fail_fast {σ : Type} (S : Sys σ) (w : σ) (c : initConfig)
    (pre post : List (Call × Option Error)) (x : Call × Option Error)
    (h : log (runInit S w c).2.trace = pre ++ x :: post) :
    (x.2 ≠ none →
      post = [] ∧ ∃ err, (runInit S w c).1 = Except.error (Stop.returned err)) ∧
    (x.1.op = Op.Execv → ∀ y ∈ pre, y.2 = none) := by
  obtain ⟨h1, h2⟩ := (Init_all_but_last_ok S w c).out
  have hrun : Init S ⟨w, c, []⟩ = runInit S w c := rfl
  rw [hrun] at h1 h2
  rw [h] at h1 h2
  have hpre : ∀ y ∈ pre, y.2 = none := by
    intro y hy
    apply h1
    rw [List.dropLast_append_cons]
    exact List.mem_append_left _ hy
  refine ⟨fun hx => ?_, fun _ => hpre⟩
  have hpost : post = [] := by
    by_contra hne
    apply hx
    apply h1
    obtain ⟨z, rest, rfl⟩ := List.exists_cons_of_ne_nil hne
    rw [List.dropLast_append_cons]
    simp
  refine ⟨hpost, h2 x ?_ hx⟩
  subst hpost
  exact List.getLast?_concat pre

/-- A run in which `Setsid` fails: the log ends with the failed call, and
`Init` returns an error. -/
theorem Init_fail_fast_witness :
    log (runInit setsidFails () scenarioConfig).2.trace =
        [(Call.joinExistingNamespaces [⟨NamespaceType.NEWNS, ""⟩], none)] ++
          (Call.Setsid, some (Error.cause "EPERM")) :: [] ∧
      (([] : List (Call × Option Error)) = [] ∧
        ∃ err, (runInit setsidFails () scenarioConfig).1 = Except.error (Stop.returned err)) :=
  ⟨by rw [run_setsidFails]; decide,
    (Init_fail_fast setsidFails () scenarioConfig
      [(Call.joinExistingNamespaces [⟨NamespaceType.NEWNS, ""⟩], none)] []
      (Call.Setsid, some (Error.cause "EPERM")) (by rw [run_setsidFails]; decide)).1
      (by decide)⟩

/-! ## Conditional gating -/

set_option maxHeartbeats 4000000 in
/-- The calls of the orphan check and of the exec in a run of `Init`. -/
theorem Init_orphan_holds {σ : Type} (S : Sys σ) (w : σ) (c : initConfig) :
    Holds (Init S) ⟨w, c, []⟩ (fun _ p =>
      Succeeded p.trace Op.Restore →
      ∃ ppid,
        (ppid = 1 ∧ ∃ pid, only [Op.Getppid, Op.Getpid, Op.Kill, Op.Execv] (calls p.trace) =
          [Call.Getppid 1, Call.Getpid pid, Call.Kill pid SIGKILL]) ∨
        (ppid ≠ 1 ∧ only [Op.Getppid, Op.Getpid, Op.Kill] (calls p.trace) = [Call.Getppid ppid] ∧
          (c.Args ≠ [] → ∃ path, c.Args.head? = some path ∧
            only [Op.Getppid, Op.Getpid, Op.Kill, Op.Execv] (calls p.trace) =
              [Call.Getppid ppid, Call.Execv path c.Args c.Env]))) := by
  unfold Init
  dsimp only
  repeat' with_reducible first
    | (apply holds_getConfig_bind; dsimp only)
    | apply holds_defaultCwd
    | (apply holds_when_bind <;> intros)
    | apply holds_check_none_bind
    | apply holds_check_some_bind
    | apply holds_ret_none
    | apply holds_ret_some
    | apply holds_stop
    | (apply holds_index0_bind <;> intros)
    | (apply holds_ite <;> intro _)
    | (apply holds_call_bind <;> intros)
    | (apply holds_call2_bind <;> intros)
    | (apply holds_invoke_bind; intros)
    | (apply holds_rangeCheck_bind <;> intros)
  all_goals
    simp only [succeeded_iff, okOps_append, okOps_nil, okOps_cons_none, okOps_cons_some,
      okOps_ite, okOps_map, only_append, only_cons, only_nil, only_ite, only_map_remountReadonly,
      only_map_maskFile, log, Event.entry, calls, List.map_append, List.map_cons, List.map_nil, *,
      op_eqs, List.mem_cons, List.mem_singleton, List.not_mem_nil, reduceCtorEq, or_false,
      or_self, if_false, if_true, List.append_nil, List.nil_append, false_or, false_and,
      and_false, List.mem_append, List.mem_map, List.mem_ite_nil_right, exists_false,
      false_implies, implies_true, and_true, true_and, and_self, ne_eq, ite_self,
      List.getLast?_concat, List.dropLast_concat]
  all_goals try (simp +contextual [*])

/-- C6 (orphan self-termination) does not hold on an empty command line.
The scenario with `Args = []`, every collaborator succeeding and `Getppid`
returning 0 (not the sentinel): every call of the run returned nil, `Restore`
among them, so steps 1-15 succeeded; `Getppid` returned 0; yet `Init` does not
proceed to `Execv`: neither `Kill` nor `Execv` is invoked and the run ends in
the panic of the expression `Args[0]`. -/
theorem Init_orphan_check_counterexample :
    (∀ x ∈ log (runInit (okSys Unit 0) () emptyArgsConfig).2.trace, x.2 = none) ∧
    Succeeded (runInit (okSys Unit 0) () emptyArgsConfig).2.trace Op.Restore ∧
    only [Op.Getppid] (calls (runInit (okSys Unit 0) () emptyArgsConfig).2.trace) =
      [Call.Getppid 0] ∧
    (0 : Int) ≠ 1 ∧
    only [Op.Kill, Op.Execv] (calls (runInit (okSys Unit 0) () emptyArgsConfig).2.trace) = [] ∧
    (runInit (okSys Unit 0) () emptyArgsConfig).1 = Except.error Stop.panic :=
  ⟨by rw [run_emptyArgs]; decide, by rw [run_emptyArgs]; decide,
    by rw [run_emptyArgs]; decide, by decide, by rw [run_emptyArgs]; decide,
    by rw [run_emptyArgs]⟩

/-- C6 (orphan self-termination), with `Execv` promised on a non-empty
command line only.  In every run of `Init` in which steps 1-15 succeeded
(`Restore` returned nil), whatever `Args` is: the trace is genuine (each of
its entries is the collaborator of `S` it names applied to the world the entry
before it left behind, and the world at the end of the run is the one the last
entry left), and its entries of `Getppid`, `Getpid`, `Kill` and `Execv` are:
`Getppid` returning some `ppid`, followed, when `ppid` is 1, by `Getpid`
returning some `pid` and `Kill pid SIGKILL` and no `Execv`; when `ppid` is
anything else there is no `Getpid` and no `Kill`, and, if `Args` is not empty,
`Getppid` is followed by `Execv` on `Args[0]`, `Args`, `Env`. -/
theorem Init_orphan_check {σ : Type} (S : Sys σ) (w : σ) (c : initConfig)
    (hok : Succeeded (runInit S w c).2.trace Op.Restore) :
    Genuine S w (runInit S w c).2.trace ∧
    (runInit S w c).2.world = lastWorld w (runInit S w c).2.trace ∧
    ∃ ppid,
      (ppid = 1 ∧ ∃ pid,
        only [Op.Getppid, Op.Getpid, Op.Kill, Op.Execv] (calls (runInit S w c).2.trace) =
          [Call.Getppid 1, Call.Getpid pid, Call.Kill pid SIGKILL]) ∨
      (ppid ≠ 1 ∧
        only [Op.Getppid, Op.Getpid, Op.Kill] (calls (runInit S w c).2.trace) =
          [Call.Getppid ppid] ∧
        (c.Args ≠ [] → ∃ path, c.Args.head? = some path ∧
          only [Op.Getppid, Op.Getpid, Op.Kill, Op.Execv] (calls (runInit S w c).2.trace) =
            [Call.Getppid ppid, Call.Execv path c.Args c.Env])) :=
  ⟨(Init_faithful S w c).1, (Init_faithful S w c).2, (Init_orphan_holds S w c).out hok⟩

/-- An orphaned run (`Getppid` returns 1) kills itself and never execs, on the
scenario and on an empty command line alike; a run of the scenario in a
private PID namespace (`Getppid` returns 0) execs. -/
theorem Init_orphan_check_witness :
    (Succeeded (runInit (okSys Unit 1) () emptyArgsConfig).2.trace Op.Restore ∧
      only [Op.Getppid, Op.Getpid, Op.Kill, Op.Execv]
          (calls (runInit (okSys Unit 1) () emptyArgsConfig).2.trace) =
        [Call.Getppid 1, Call.Getpid 7, Call.Kill 7 SIGKILL] ∧
      only [Op.Getppid, Op.Getpid, Op.Kill, Op.Execv]
          (calls (runInit (okSys Unit 1) () scenarioConfig).2.trace) =
        [Call.Getppid 1, Call.Getpid 7, Call.Kill 7 SIGKILL] ∧
      Succeeded (runInit (okSys Unit 0) () scenarioConfig).2.trace Op.Restore ∧
      only [Op.Getppid, Op.Getpid, Op.Kill, Op.Execv]
          (calls (runInit (okSys Unit 0) () scenarioConfig).2.trace) =
        [Call.Getppid 0, Call.Execv "/bin/true" ["/bin/true"] ["PATH=/usr/bin"]]) ∧
    (Genuine (okSys Unit 1) () (runInit (okSys Unit 1) () emptyArgsConfig).2.trace ∧
      (runInit (okSys Unit 1) () emptyArgsConfig).2.world =
        lastWorld () (runInit (okSys Unit 1) () emptyArgsConfig).2.trace ∧
      ∃ ppid,
        (ppid = 1 ∧ ∃ pid,
          only [Op.Getppid, Op.Getpid, Op.Kill, Op.Execv]
              (calls (runInit (okSys Unit 1) () emptyArgsConfig).2.trace) =
            [Call.Getppid 1, Call.Getpid pid, Call.Kill pid SIGKILL]) ∨
        (ppid ≠ 1 ∧
          only [Op.Getppid, Op.Getpid, Op.Kill]
              (calls (runInit (okSys Unit 1) () emptyArgsConfig).2.trace) =
            [Call.Getppid ppid] ∧
          (emptyArgsConfig.Args ≠ [] → ∃ path, emptyArgsConfig.Args.head? = some path ∧
            only [Op.Getppid, Op.Getpid, Op.Kill, Op.Execv]
                (calls (runInit (okSys Unit 1) () emptyArgsConfig).2.trace) =
              [Call.Getppid ppid, Call.Execv path emptyArgsConfig.Args emptyArgsConfig.Env]))) ∧
    Genuine (okSys Unit 0) () (runInit (okSys Unit 0) () scenarioConfig).2.trace :=
  ⟨⟨by rw [run_emptyArgs_orphan]; decide, by rw [run_emptyArgs_orphan]; decide,
      by rw [run_scenario_orphan]; decide, by rw [run_scenario]; decide,
      by rw [run_scenario]; decide⟩,
    Init_orphan_check (okSys Unit 1) () emptyArgsConfig
      (by rw [run_emptyArgs_orphan]; decide),
    (Init_orphan_check (okSys Unit 0) () scenarioConfig (by rw [run_scenario]; decide)).1⟩

set_option maxHeartbeats 4000000 in
/-- The exec of a run of `Init` whose parent is alive. -/
theorem Init_execv_holds {σ : Type} (S : Sys σ) (w : σ) (c : initConfig) :
    Holds (Init S) ⟨w, c, []⟩ (fun r p =>
      c.Args ≠ [] → Succeeded p.trace Op.Restore →
      (∀ n, Call.Getppid n ∈ calls p.trace → n ≠ 1) →
      ∃ path err, c.Args.head? = some path ∧
        (log p.trace).getLast? = some (Call.Execv path c.Args c.Env, err) ∧
        only [Op.Execv] (calls p.trace) = [Call.Execv path c.Args c.Env] ∧
        r = (match err with
          | none => Except.ok ()
          | some e => Except.error (Stop.returned e)) ∧
        p.config.Cwd = (if c.Cwd = "" then "/" else c.Cwd)) := by
  unfold Init
  dsimp only
  repeat' with_reducible first
    | (apply holds_getConfig_bind; dsimp only)
    | apply holds_defaultCwd
    | (apply holds_when_bind <;> intros)
    | apply holds_check_none_bind
    | apply holds_check_some_bind
    | apply holds_ret_none
    | apply holds_ret_some
    | apply holds_stop
    | (apply holds_index0_bind <;> intros)
    | (apply holds_ite <;> intro _)
    | (apply holds_call_bind <;> intros)
    | (apply holds_call2_bind <;> intros)
    | (apply holds_invoke_bind; intros)
    | (apply holds_rangeCheck_bind <;> intros)
  all_goals
    simp only [succeeded_iff, okOps_append, okOps_nil, okOps_cons_none, okOps_cons_some,
      okOps_ite, okOps_map, only_append, only_cons, only_nil, only_ite, only_map_remountReadonly,
      only_map_maskFile, log, Event.entry, calls, List.map_append, List.map_cons, List.map_nil, *,
      op_eqs, List.mem_cons, List.mem_singleton, List.not_mem_nil, reduceCtorEq, or_false,
      or_self, if_false, if_true, List.append_nil, List.nil_append, false_or, false_and,
      and_false, List.mem_append, List.mem_map, List.mem_ite_nil_right, exists_false,
      false_implies, implies_true, and_true, true_and, and_self, ne_eq, ite_self,
      List.getLast?_concat, List.dropLast_concat]
  all_goals try (simp +contextual [*, effectiveCwd])

set_option maxHeartbeats 4000000 in
/-- A run of `Init` in which no call but `Kill` or `Execv` returned a cause
gets through step 15: `Restore` is invoked and returns nil. -/
theorem Init_progress_holds {σ : Type} (S : Sys σ) (w : σ) (c : initConfig) :
    Holds (Init S) ⟨w, c, []⟩ (fun _ p =>
      (∀ o ∈ failedOps (log p.trace), o = Op.Kill ∨ o = Op.Execv) →
      Succeeded p.trace Op.Restore) := by
  unfold Init
  dsimp only
  repeat' with_reducible first
    | (apply holds_getConfig_bind; dsimp only)
    | apply holds_defaultCwd
    | (apply holds_when_bind <;> intros)
    | apply holds_check_none_bind
    | apply holds_check_some_bind
    | apply holds_ret_none
    | apply holds_ret_some
    | apply holds_stop
    | (apply holds_index0_bind <;> intros)
    | (apply holds_ite <;> intro _)
    | (apply holds_call_bind <;> intros)
    | (apply holds_call2_bind <;> intros)
    | (apply holds_invoke_bind; intros)
    | (apply holds_rangeCheck_bind <;> intros)
  all_goals
    simp only [succeeded_iff, okOps_append, okOps_nil, okOps_cons_none, okOps_cons_some,
      okOps_ite, okOps_map, failed_iff, failedOps_append, failedOps_nil, failedOps_cons_none,
      failedOps_cons_some, failedOps_ite, failedOps_map, log, Event.entry, List.map_append,
      List.map_cons, List.map_nil, *, op_eqs, List.mem_cons, List.mem_singleton, List.not_mem_nil,
      reduceCtorEq, or_false, or_self, if_false, if_true, List.append_nil, List.nil_append,
      false_or, false_and, and_false, List.mem_append, List.mem_map, List.mem_ite_nil_right,
      exists_false, false_implies, implies_true, and_true, true_and, and_self, ne_eq, ite_self,
      List.getLast?_concat, List.dropLast_concat]
  all_goals try (simp +contextual [*])

/-- The exec of a run of `Init` that passed step 15 with the parent alive: the
run ends with the collaborator `Execv` applied to the world the earlier calls
left behind. -/
theorem Init_execv_last {σ : Type} (S : Sys σ) (w : σ) (c : initConfig)
    (hargs : c.Args ≠ []) (hok : Succeeded (runInit S w c).2.trace Op.Restore)
    (hppid : ∀ n, Call.Getppid n ∈ calls (runInit S w c).2.trace → n ≠ 1) :
    ∃ path pre, c.Args.head? = some path ∧
      (runInit S w c).2.trace =
        pre ++ [S.apply (Call.Execv path c.Args c.Env) (lastWorld w pre)] ∧
      only [Op.Execv] (calls (runInit S w c).2.trace) = [Call.Execv path c.Args c.Env] ∧
      (runInit S w c).1 =
        (match (S.Execv path c.Args c.Env (lastWorld w pre)).1 with
          | none => Except.ok ()
          | some e => Except.error (Stop.returned e)) ∧
      (runInit S w c).2.world = (S.Execv path c.Args c.Env (lastWorld w pre)).2 ∧
      (runInit S w c).2.config.Cwd = (if c.Cwd = "" then "/" else c.Cwd) := by
  obtain ⟨path, err, h1, h2, h3, h4, h5⟩ := (Init_execv_holds S w c).out hargs hok hppid
  obtain ⟨hg, hw⟩ := Init_faithful S w c
  obtain ⟨pre, hpre, herr⟩ := genuine_last S w _ _ _ hg h2
  refine ⟨path, pre, h1, hpre, h3, ?_, ?_, h5⟩
  · have herr2 : (S.Execv path c.Args c.Env (lastWorld w pre)).1 = err := herr
    rw [herr2]
    exact h4
  · rw [hw, hpre, lastWorld_append]
    rfl

/-- C9 (process-image replacement).  For an `initConfig` with non-empty
`Args`: the trace of every run of `Init` is genuine (each of its entries is
the collaborator of `S` it names applied to the world the entry before it left
behind).  In every run in which steps 1-15 succeeded (`Restore` returned nil)
and `Getppid` did not return 1, `Args[0]` is in bounds and the trace ends with
the collaborator `Execv` of `S` applied, on path `Args[0]`, argv `Args` and
environment `Env`, to the world the earlier calls left behind; it is the only
call of `Execv`; `Init` returns what that application returned (no panic) and
leaves the world it left; and the working directory held in the configuration
is `/` when none was configured and the configured one otherwise.  The same
holds in every run over an environment `S` in which every collaborator of
steps 1-15 returns nil and `Getppid` never returns 1: such a run does reach
`Execv`.  In the scenario of the specification, over every such environment,
the trace ends with `Execv "/bin/true" ["/bin/true"] ["PATH=/usr/bin"]`
applied to the world the earlier calls left behind, and the working directory
is `/`. -/
theorem Init_execv {σ : Type} (S : Sys σ) (w : σ) (c : initConfig) (hargs : c.Args ≠ []) :
    Genuine S w (runInit S w c).2.trace ∧
    (Succeeded (runInit S w c).2.trace Op.Restore →
      (∀ n, Call.Getppid n ∈ calls (runInit S w c).2.trace → n ≠ 1) →
      ∃ path pre, c.Args.head? = some path ∧
        (runInit S w c).2.trace =
          pre ++ [S.apply (Call.Execv path c.Args c.Env) (lastWorld w pre)] ∧
        only [Op.Execv] (calls (runInit S w c).2.trace) = [Call.Execv path c.Args c.Env] ∧
        (runInit S w c).1 =
          (match (S.Execv path c.Args c.Env (lastWorld w pre)).1 with
            | none => Except.ok ()
            | some e => Except.error (Stop.returned e)) ∧
        (runInit S w c).2.world = (S.Execv path c.Args c.Env (lastWorld w pre)).2 ∧
        (runInit S w c).2.config.Cwd = (if c.Cwd = "" then "/" else c.Cwd)) ∧
    (S.AllSucceed → S.ParentAlive →
      ∃ path pre, c.Args.head? = some path ∧
        (runInit S w c).2.trace =
          pre ++ [S.apply (Call.Execv path c.Args c.Env) (lastWorld w pre)] ∧
        only [Op.Execv] (calls (runInit S w c).2.trace) = [Call.Execv path c.Args c.Env] ∧
        (runInit S w c).1 =
          (match (S.Execv path c.Args c.Env (lastWorld w pre)).1 with
            | none => Except.ok ()
            | some e => Except.error (Stop.returned e)) ∧
        (runInit S w c).2.world = (S.Execv path c.Args c.Env (lastWorld w pre)).2 ∧
        (runInit S w c).2.config.Cwd = (if c.Cwd = "" then "/" else c.Cwd)) ∧
    (S.AllSucceed → S.ParentAlive →
      ∃ pre, (runInit S w scenarioConfig).2.trace =
          pre ++ [S.apply (Call.Execv "/bin/true" ["/bin/true"] ["PATH=/usr/bin"])
            (lastWorld w pre)] ∧
        only [Op.Execv] (calls (runInit S w scenarioConfig).2.trace) =
          [Call.Execv "/bin/true" ["/bin/true"] ["PATH=/usr/bin"]] ∧
        (runInit S w scenarioConfig).2.config.Cwd = "/") := by
  have env : ∀ c1 : initConfig, S.AllSucceed → S.ParentAlive →
      Succeeded (runInit S w c1).2.trace Op.Restore ∧
        ∀ n, Call.Getppid n ∈ calls (runInit S w c1).2.trace → n ≠ 1 := by
    intro c1 hall halive
    have hg := (Init_faithful S w c1).1
    exact ⟨(Init_progress_holds S w c1).out (genuine_failedOps S hall _ w hg),
      genuine_getppid S halive _ w hg⟩
  refine ⟨(Init_faithful S w c).1, Init_execv_last S w c hargs, ?_, ?_⟩
  · intro hall halive
    exact Init_execv_last S w c hargs (env c hall halive).1 (env c hall halive).2
  · intro hall halive
    obtain ⟨path, pre, h1, h2, h3, _, _, h6⟩ :=
      Init_execv_last S w scenarioConfig (by decide) (env _ hall halive).1
        (env _ hall halive).2
    have hpath : path = "/bin/true" := by
      simpa [scenarioConfig] using h1.symm
    subst hpath
    exact ⟨pre, h2, h3, by rw [h6]; rfl⟩

/-- The environment `okSys` with the parent alive: all its collaborators
succeed, so the scenario ends in `Execv "/bin/true"` with working directory
`/`, and so does the run with a console on its own command line. -/
theorem Init_execv_witness :
    (consoleConfig.Args ≠ [] ∧ (okSys Unit 0).AllSucceed ∧ (okSys Unit 0).ParentAlive ∧
      Succeeded (runInit (okSys Unit 0) () consoleConfig).2.trace Op.Restore ∧
      (log (runInit (okSys Unit 0) () scenarioConfig).2.trace).getLast? =
        some (Call.Execv "/bin/true" ["/bin/true"] ["PATH=/usr/bin"], none) ∧
      (log (runInit (okSys Unit 0) () consoleConfig).2.trace).getLast? =
        some (Call.Execv "/bin/sh" ["/bin/sh", "-c", "true"] [], none)) ∧
    (∃ pre, (runInit (okSys Unit 0) () scenarioConfig).2.trace =
        pre ++ [(okSys Unit 0).apply (Call.Execv "/bin/true" ["/bin/true"] ["PATH=/usr/bin"])
          (lastWorld () pre)] ∧
      only [Op.Execv] (calls (runInit (okSys Unit 0) () scenarioConfig).2.trace) =
        [Call.Execv "/bin/true" ["/bin/true"] ["PATH=/usr/bin"]] ∧
      (runInit (okSys Unit 0) () scenarioConfig).2.config.Cwd = "/") ∧
    (∃ path pre, consoleConfig.Args.head? = some path ∧
      (runInit (okSys Unit 0) () consoleConfig).2.trace =
        pre ++ [(okSys Unit 0).apply (Call.Execv path consoleConfig.Args consoleConfig.Env)
          (lastWorld () pre)] ∧
      only [Op.Execv] (calls (runInit (okSys Unit 0) () consoleConfig).2.trace) =
        [Call.Execv path consoleConfig.Args consoleConfig.Env] ∧
      (runInit (okSys Unit 0) () consoleConfig).1 =
        (match ((okSys Unit 0).Execv path consoleConfig.Args consoleConfig.Env
            (lastWorld () pre)).1 with
          | none => Except.ok ()
          | some e => Except.error (Stop.returned e)) ∧
      (runInit (okSys Unit 0) () consoleConfig).2.world =
        ((okSys Unit 0).Execv path consoleConfig.Args consoleConfig.Env (lastWorld () pre)).2 ∧
      (runInit (okSys Unit 0) () consoleConfig).2.config.Cwd =
        (if consoleConfig.Cwd = "" then "/" else consoleConfig.Cwd)) :=
  ⟨⟨by decide, fun c _ _ _ => by cases c <;> rfl, fun _ => (by decide : (0 : Int) ≠ 1),
      by rw [run_console]; decide, by rw [run_scenario]; decide, by rw [run_console]; decide⟩,
    (Init_execv (okSys Unit 0) () consoleConfig (by decide)).2.2.2
      (fun c _ _ _ => by cases c <;> rfl) (fun _ => (by decide : (0 : Int) ≠ 1)),
    (Init_execv (okSys Unit 0) () consoleConfig (by decide)).2.1
      (by rw [run_console]; decide) (by rw [run_console]; simp [calls])⟩

/-! ## Default working directory -/

set_option maxHeartbeats 4000000 in
/-- The working directory in a run of `Init`. -/
theorem Init_cwd_holds {σ : Type} (S : Sys σ) (w : σ) (c : initConfig) :
    Holds (Init S) ⟨w, c, []⟩ (fun _ p =>
      (Succeeded p.trace Op.Setsid →
        (c.Config.Console ≠ "" → Succeeded p.trace Op.Setctty) →
        p.config = { c with Cwd := if c.Cwd = "" then "/" else c.Cwd }) ∧
      (∀ l, Call.finalizeNamespace l ∈ calls p.trace →
        l = { c with Cwd := if c.Cwd = "" then "/" else c.Cwd })) := by
  unfold Init
  dsimp only
  repeat' with_reducible first
    | (apply holds_getConfig_bind; dsimp only)
    | apply holds_defaultCwd
    | (apply holds_when_bind <;> intros)
    | apply holds_check_none_bind
    | apply holds_check_some_bind
    | apply holds_ret_none
    | apply holds_ret_some
    | apply holds_stop
    | (apply holds_index0_bind <;> intros)
    | (apply holds_ite <;> intro _)
    | (apply holds_call_bind <;> intros)
    | (apply holds_call2_bind <;> intros)
    | (apply holds_invoke_bind; intros)
    | (apply holds_rangeCheck_bind <;> intros)
  all_goals
    simp only [succeeded_iff, okOps_append, okOps_nil, okOps_cons_none, okOps_cons_some,
      okOps_ite, okOps_map, log, Event.entry, calls, List.map_append, List.map_cons, List.map_nil,
      *, op_eqs, List.mem_cons, List.mem_singleton, List.not_mem_nil, reduceCtorEq, or_false,
      or_self, if_false, if_true, List.append_nil, List.nil_append, false_or, false_and,
      and_false, List.mem_append, List.mem_map, List.mem_ite_nil_right, exists_false,
      false_implies, implies_true, and_true, true_and, and_self, ne_eq, ite_self,
      List.getLast?_concat, List.dropLast_concat]
  all_goals try (simp +contextual [*, effectiveCwd])

/-- C8 (default cwd).  In every run of `Init` that passed step 5 (steps 1-4
succeeded: `Setsid` returned nil, and so did `Setctty` when a console is
configured) the configuration at the end of the run is the given one with
`Cwd` replaced by `/` if it was empty and left unchanged otherwise; and any
`initConfig` that `finalizeNamespace` is invoked on is that configuration. -/
theorem Init_default_cwd {σ : Type} (S : Sys σ) (w : σ) (c : initConfig)
    (hsetsid : Succeeded (runInit S w c).2.trace Op.Setsid)
    (hctty : c.Config.Console ≠ "" → Succeeded (runInit S w c).2.trace Op.Setctty) :
    (runInit S w c).2.config = { c with Cwd := if c.Cwd = "" then "/" else c.Cwd } ∧
    (∀ l, Call.finalizeNamespace l ∈ calls (runInit S w c).2.trace →
      l = { c with Cwd := if c.Cwd = "" then "/" else c.Cwd }) :=
  ⟨(Init_cwd_holds S w c).out.1 hsetsid hctty, (Init_cwd_holds S w c).out.2⟩

/-- The scenario has no working directory: after the run it is `/`, and
`finalizeNamespace` was invoked on the configuration with `/`.  A configured
working directory is kept. -/
theorem Init_default_cwd_witness :
    (Succeeded (runInit (okSys Unit 0) () scenarioConfig).2.trace Op.Setsid ∧
      (runInit (okSys Unit 0) () scenarioConfig).2.config.Cwd = "/" ∧
      Call.finalizeNamespace { scenarioConfig with Cwd := "/" } ∈
        calls (runInit (okSys Unit 0) () scenarioConfig).2.trace ∧
      (runInit (okSys Unit 0) () consoleConfig).2.config.Cwd = "/srv") ∧
    ((runInit (okSys Unit 0) () scenarioConfig).2.config =
        { scenarioConfig with Cwd := if scenarioConfig.Cwd = "" then "/" else scenarioConfig.Cwd } ∧
      (∀ l, Call.finalizeNamespace l ∈ calls (runInit (okSys Unit 0) () scenarioConfig).2.trace →
        l = { scenarioConfig with
          Cwd := if scenarioConfig.Cwd = "" then "/" else scenarioConfig.Cwd })) :=
  ⟨⟨by rw [run_scenario]; decide, by rw [run_scenario], by rw [run_scenario]; decide,
      by rw [run_console]; rfl⟩,
    Init_default_cwd (okSys Unit 0) () scenarioConfig (by rw [run_scenario]; decide)
      (fun h => absurd rfl h)⟩

/-! ## Parent-death-signal round trip -/

set_option maxHeartbeats 4000000 in
/-- The guard calls in a run of `Init` over the accessors of `guardSys`. -/
theorem Init_roundtrip_holds {σ : Type} (S : Sys (World σ))
    (getFails : World σ → Option Error)
    (restoreFails : ParentDeathSignal → World σ → Option Error)
    (w : World σ) (c : initConfig) :
    Holds (Init (guardSys S getFails restoreFails)) ⟨w, c, []⟩ (fun _ p =>
      Succeeded p.trace Op.Restore → RoundTrip p.trace) := by
  unfold Init
  dsimp only [guardSys]
  repeat' with_reducible first
    | (apply holds_getConfig_bind; dsimp only)
    | apply holds_defaultCwd
    | (apply holds_when_bind <;> intros)
    | apply holds_check_none_bind
    | apply holds_check_some_bind
    | apply holds_ret_none
    | apply holds_ret_some
    | apply holds_stop
    | (apply holds_index0_bind <;> intros)
    | (apply holds_ite <;> intro _)
    | (apply holds_GetParentDeathSignal_bind <;> intros)
    | (apply holds_Restore_bind <;> intros)
    | (apply holds_call_bind <;> intros)
    | (apply holds_invoke_bind; intros)
    | (apply holds_rangeCheck_bind <;> intros)
  all_goals
    simp only [succeeded_iff, okOps_append, okOps_nil, okOps_cons_none, okOps_cons_some,
      okOps_ite, okOps_map, log, Event.entry, List.map_append, List.map_cons, List.map_nil, *,
      op_eqs, List.mem_cons, List.mem_singleton, List.not_mem_nil, reduceCtorEq, or_false,
      or_self, if_false, if_true, List.append_nil, List.nil_append, false_or, false_and,
      and_false, List.mem_append, List.mem_map, List.mem_ite_nil_right, exists_false,
      false_implies, implies_true, and_true, true_and, and_self, ne_eq, ite_self,
      List.getLast?_concat, List.dropLast_concat]
  all_goals intro _
  all_goals
    repeat' with_reducible first
    | apply roundTrip_base
    | apply roundTrip_snoc
  all_goals
    simp only [only_append, only_cons, only_nil, only_ite, only_map_remountReadonly,
      only_map_maskFile, calls, List.map_append, List.map_cons, List.map_nil, *, op_eqs,
      List.mem_cons, List.mem_singleton, List.not_mem_nil, reduceCtorEq, or_false, or_self,
      if_false, if_true, List.append_nil, List.nil_append, false_or, false_and, and_false,
      List.mem_append, List.mem_map, List.mem_ite_nil_right, exists_false, false_implies,
      implies_true, and_true, true_and, and_self, ne_eq, ite_self, List.getLast?_concat,
      List.dropLast_concat]

/-- C5 (death-signal round trip).  The registration is the field `pdeathsig`
of the world; `GetParentDeathSignal` and `Restore` are the accessors of
`guardSys`, every other collaborator (so `finalizeNamespace`) may change the
field at will.  In every run of `Init` in which all steps through `Restore`
succeeded, the trace is `pre ++ eg :: ef :: er :: post` where `eg` is the call
of `GetParentDeathSignal`, returning the registration of the world it leaves
(the world `finalizeNamespace` starts from), `ef` is the call of
`finalizeNamespace`, `er` is the call of `Restore` on exactly that value, the
registration in the world after `er` equals the captured one, and no other
call of the three operations occurs in `pre` or `post`. -/
theorem Init_pdeath_round_trip {σ : Type} (S : Sys (World σ))
    (getFails : World σ → Option Error)
    (restoreFails : ParentDeathSignal → World σ → Option Error)
    (w : World σ) (c : initConfig)
    (hok : Succeeded (runInit (guardSys S getFails restoreFails) w c).2.trace Op.Restore) :
    ∃ (pre : List (Event (World σ))) (eg ef er : Event (World σ))
      (post : List (Event (World σ))),
      (runInit (guardSys S getFails restoreFails) w c).2.trace =
        pre ++ eg :: ef :: er :: post ∧
      eg.call = Call.GetParentDeathSignal eg.post.pdeathsig ∧ eg.err = none ∧
      ef.call.op = Op.finalizeNamespace ∧ ef.err = none ∧
      er.call = Call.Restore eg.post.pdeathsig ∧ er.err = none ∧
      er.post.pdeathsig = eg.post.pdeathsig ∧
      only [Op.GetParentDeathSignal, Op.finalizeNamespace, Op.Restore] (calls pre) = [] ∧
      only [Op.GetParentDeathSignal, Op.finalizeNamespace, Op.Restore] (calls post) = [] :=
  (Init_roundtrip_holds S getFails restoreFails w c).out hok

/-- A run from a world with registration 9 in which `finalizeNamespace`
clears the registration: the registrations after `GetParentDeathSignal`,
`finalizeNamespace` and `Restore` are 9, 0 and 9. -/
theorem Init_pdeath_round_trip_witness :
    (Succeeded (runInit (guardSys finalizeClears (fun _ => none) (fun _ _ => none))
        ⟨9, ()⟩ scenarioConfig).2.trace Op.Restore ∧
      ((runInit (guardSys finalizeClears (fun _ => none) (fun _ _ => none))
          ⟨9, ()⟩ scenarioConfig).2.trace.filter
            (fun e => decide (e.call.op ∈
              [Op.GetParentDeathSignal, Op.finalizeNamespace, Op.Restore]))).map
          (fun e => (e.call.op, e.post.pdeathsig)) =
        [(Op.GetParentDeathSignal, 9), (Op.finalizeNamespace, 0), (Op.Restore, 9)]) ∧
    ∃ (pre : List (Event (World Unit))) (eg ef er : Event (World Unit))
      (post : List (Event (World Unit))),
      (runInit (guardSys finalizeClears (fun _ => none) (fun _ _ => none))
        ⟨9, ()⟩ scenarioConfig).2.trace = pre ++ eg :: ef :: er :: post ∧
      eg.call = Call.GetParentDeathSignal eg.post.pdeathsig ∧ eg.err = none ∧
      ef.call.op = Op.finalizeNamespace ∧ ef.err = none ∧
      er.call = Call.Restore eg.post.pdeathsig ∧ er.err = none ∧
      er.post.pdeathsig = eg.post.pdeathsig ∧
      only [Op.GetParentDeathSignal, Op.finalizeNamespace, Op.Restore] (calls pre) = [] ∧
      only [Op.GetParentDeathSignal, Op.finalizeNamespace, Op.Restore] (calls post) = [] :=
  ⟨⟨by rw [run_finalizeClears]; decide, by rw [run_finalizeClears]; decide⟩,
    Init_pdeath_round_trip finalizeClears (fun _ => none) (fun _ _ => none) ⟨9, ()⟩
      scenarioConfig (by rw [run_finalizeClears]; decide)⟩

/-! ## Uniform error wrapping -/

set_option maxHeartbeats 4000000 in
/-- The error `Init` returns when the last call of a run returned a cause. -/
theorem Init_wrapping_holds {σ : Type} (S : Sys σ) (w : σ) (c : initConfig) :
    Holds (Init S) ⟨w, c, []⟩ (fun r p =>
      ∀ (x : Call) (e : Error), (log p.trace).getLast? = some (x, some e) →
        (x.op ≠ Op.Kill → x.op ≠ Op.Execv →
          r = Except.error (Stop.returned (newSystemError e))) ∧
        (x.op = Op.Kill ∨ x.op = Op.Execv → r = Except.error (Stop.returned e))) := by
  unfold Init
  dsimp only
  repeat' with_reducible first
    | (apply holds_getConfig_bind; dsimp only)
    | apply holds_defaultCwd
    | (apply holds_when_bind <;> intros)
    | apply holds_check_none_bind
    | apply holds_check_some_bind
    | apply holds_ret_none
    | apply holds_ret_some
    | apply holds_stop
    | (apply holds_index0_bind <;> intros)
    | (apply holds_ite <;> intro _)
    | (apply holds_call_bind <;> intros)
    | (apply holds_call2_bind <;> intros)
    | (apply holds_invoke_bind; intros)
    | (apply holds_rangeCheck_bind <;> intros)
  all_goals
    simp only [log, Event.entry, List.map_append, List.map_cons, List.map_nil, *, op_eqs,
      List.mem_cons, List.mem_singleton, List.not_mem_nil, reduceCtorEq, or_false, or_self,
      if_false, if_true, List.append_nil, List.nil_append, false_or, false_and, and_false,
      List.mem_append, List.mem_map, List.mem_ite_nil_right, exists_false, false_implies,
      implies_true, and_true, true_and, and_self, ne_eq, ite_self, List.getLast?_concat,
      List.dropLast_concat]
  all_goals try (simp +contextual [*, op_eqs])

/-- C2 (uniform error wrapping) holds for steps 1-15 and fails for the last
two.  In every run of `Init` whose last call returned a cause `e`, `Init`
returns `newSystemError e` when that call is neither `Kill` nor `Execv`, and
returns `e` itself when it is `Kill` or `Execv`.  So in the scenario of the
specification, with every collaborator succeeding except `Execv`, which fails
with the cause ENOENT, the last call of the run is that failed `Execv` and
`Init` returns the cause itself, which is not the system error
`newSystemError` builds from it. -/
theorem Init_execv_error_not_wrapped :
    (∀ (σ : Type) (S : Sys σ) (w : σ) (c : initConfig) (x : Call) (e : Error),
      (log (runInit S w c).2.trace).getLast? = some (x, some e) →
        (x.op ≠ Op.Kill → x.op ≠ Op.Execv →
          (runInit S w c).1 = Except.error (Stop.returned (newSystemError e))) ∧
        (x.op = Op.Kill ∨ x.op = Op.Execv →
          (runInit S w c).1 = Except.error (Stop.returned e))) ∧
    (log (runInit execvFails () scenarioConfig).2.trace).getLast? =
      some (Call.Execv "/bin/true" ["/bin/true"] ["PATH=/usr/bin"],
        some (Error.cause "ENOENT")) ∧
    (runInit execvFails () scenarioConfig).1 =
      Except.error (Stop.returned (Error.cause "ENOENT")) ∧
    (runInit execvFails () scenarioConfig).1 ≠
      Except.error (Stop.returned (newSystemError (Error.cause "ENOENT"))) := by
  refine ⟨fun σ S w c => (Init_wrapping_holds S w c).out, ?_, ?_, ?_⟩
  · rw [run_execvFails]
    decide
  · rw [run_execvFails]
  · rw [run_execvFails]
    simp [newSystemError]

end Libcontainer

/-! ## Network strategy resolution -/

namespace Libcontainer.network

/-- Looking a name up in a registry fails exactly when the name is not among
its keys. -/
theorem lookup_eq_none_iff_not_mem_keys (registry : Registry) (name : String) :
    registry.lookup name = none ↔ name ∉ registry.keys := by
  induction registry with
  | nil => simp [Registry.keys]
  | cons p rest ih =>
    obtain ⟨k, s⟩ := p
    by_cases h : name = k
    · subst h
      simp [Registry.keys, List.lookup]
    · have hb : (name == k) = false := by simpa using h
      simp only [Registry.keys] at ih
      simp [Registry.keys, List.lookup, hb, ih, h]

/-- C7 (network strategy resolution).  For every registry and every name,
`GetStrategy` returns `(nil, ErrNotValidStrategyType)` if and only if the name
is not a key of the registry, returns the registered strategy with a nil error
otherwise, and leaves the registry as it was; on the package registry
`strategies`, "veth" resolves to `Veth` and "loopback" to `Loopback`, which
are distinct, and "bogus" fails. -/
theorem GetStrategy_resolution (registry : Registry) (name : String) :
    ((GetStrategy registry name).1 = (none, some ErrNotValidStrategyType) ↔
      name ∉ registry.keys) ∧
    (∀ s, registry.lookup name = some s → (GetStrategy registry name).1 = (some s, none)) ∧
    (name ∈ registry.keys → ∃ s, (name, s) ∈ registry ∧
      (GetStrategy registry name).1 = (some s, none)) ∧
    (GetStrategy registry name).2 = registry ∧
    (GetStrategy strategies name).2 = strategies ∧
    (GetStrategy strategies "veth").1 = (some NetworkStrategy.Veth, none) ∧
    (GetStrategy strategies "loopback").1 = (some NetworkStrategy.Loopback, none) ∧
    NetworkStrategy.Veth ≠ NetworkStrategy.Loopback ∧
    (GetStrategy strategies "bogus").1 = (none, some ErrNotValidStrategyType) ∧
    strategies.keys = ["veth", "loopback"] := by
  have hnone := lookup_eq_none_iff_not_mem_keys registry name
  refine ⟨?_, ?_, ?_, ?_, ?_, ?_, ?_, ?_, ?_, ?_⟩
  · unfold GetStrategy
    cases h : registry.lookup name with
    | none => simpa [h] using hnone
    | some s =>
      have : ¬ name ∉ registry.keys := by
        rw [← hnone, h]
        simp
      simpa using this
  · intro s hs
    simp [GetStrategy, hs]
  · intro hmem
    cases h : registry.lookup name with
    | none => exact absurd hmem (hnone.1 h)
    | some s =>
      refine ⟨s, ?_, by simp [GetStrategy, h]⟩
      clear hnone hmem
      induction registry with
      | nil => simp at h
      | cons p rest ih =>
        obtain ⟨k, t⟩ := p
        by_cases hk : name = k
        · subst hk
          simp [List.lookup] at h
          simp [h]
        · have hb : (name == k) = false := by simpa using hk
          simp only [List.lookup, hb] at h
          exact List.mem_cons_of_mem _ (ih h)
  · unfold GetStrategy
    cases registry.lookup name <;> rfl
  · unfold GetStrategy
    cases List.lookup name strategies <;> rfl
  · decide
  · decide
  · decide
  · decide
  · rfl

/-- The three names of the specification on the package registry. -/
theorem GetStrategy_resolution_witness :
    ("veth" ∈ strategies.keys ∧ "bogus" ∉ strategies.keys) ∧
    (∃ s, ("veth", s) ∈ strategies ∧ (GetStrategy strategies "veth").1 = (some s, none)) ∧
    (GetStrategy strategies "bogus").1 = (none, some ErrNotValidStrategyType) :=
  ⟨⟨by decide, by decide⟩,
    (GetStrategy_resolution strategies "veth").2.2.1 (by decide),
    (GetStrategy_resolution strategies "bogus").1.2 (by decide)⟩

end Libcontainer.network
